import Mathlib

/-!
Verification of the generic JSON patch engine of `src/automate.py`
(repository PyG2Automation).

The document model mirrors the values produced by Python's `json.load`:
ordered string-keyed maps (modelled as association lists in insertion
order — real Python dicts have unique keys), sequences, strings,
integers, booleans and `None`.  Floating point numbers never occur in
any claim and are not modelled.

Python exceptions are modelled with an explicit error type `PyErr`;
every function that can raise returns `Except PyErr _`.  In-place
mutation of the document is modelled by returning the new document.
-/

inductive JSON where
  | str  : String → JSON
  | num  : Int → JSON
  | bool : Bool → JSON
  | null : JSON
  | obj  : List (String × JSON) → JSON
  | arr  : List JSON → JSON

/-- Python exceptions raised by the code, named after the spec's error kinds
where the spec names them (§7): `emptyReplacement` is the `ValueError`
raised at line 36, `typeMismatch` the `TypeError` of line 44 and
`countMismatch` the `ValueError` of line 72 of `src/automate.py`.
`unpackError` is the `ValueError` a tuple unpacking of the wrong arity
raises (line 114), `attributeError` the `AttributeError` of calling
`.keys()`/`.values()` on a non-dict, `keyError` a missing dict key,
`typeError` subscripting/iterating/hashing an unsuitable value, and
`notModelled` marks Python behaviour outside this model (a non-string
used as a dict key by `node[property_name] = ...`). -/
inductive PyErr where
  | emptyReplacement
  | typeMismatch
  | countMismatch
  | stopIteration
  | unpackError
  | attributeError
  | keyError (k : String)
  | typeError
  | notModelled
deriving DecidableEq

/-- The runtime type tag Python's `type()` yields on a JSON-shaped value. -/
inductive PyType where
  | strT | intT | boolT | noneT | dictT | listT
deriving DecidableEq

def pyType : JSON → PyType
  | JSON.str _  => PyType.strT
  | JSON.num _  => PyType.intT
  | JSON.bool _ => PyType.boolT
  | JSON.null   => PyType.noneT
  | JSON.obj _  => PyType.dictT
  | JSON.arr _  => PyType.listT

/-- Model of `isinstance(v, type(sample))`: true when the type tags agree,
and also when `v` is a `bool` and the sample an `int`, because in Python
`bool` is a subclass of `int`. -/
def isinstanceOf (v sample : JSON) : Bool :=
  pyType v == pyType sample ||
    (pyType v == PyType.boolT && pyType sample == PyType.intT)

/-- First value stored under key `k` in an association list (Python dicts
have unique keys, so this is dict lookup `d[k]` / `k in d`). -/
def lookupVal (k : String) : List (String × JSON) → Option JSON
  | [] => none
  | (k2, v) :: rest => if k2 = k then some v else lookupVal k rest

/-- Python `d[k] = v` on a dict: replace the value in place when the key is
present (keeping its position), append the new pair otherwise. -/
def dictSet (es : List (String × JSON)) (k : String) (v : JSON) :
    List (String × JSON) :=
  if (lookupVal k es).isSome then
    es.map fun e => if e.1 = k then (e.1, v) else e
  else
    es ++ [(k, v)]

mutual

/-- Dry-run pass of `update_all_json_key` (`count_and_check_keys`,
src/automate.py lines 38-50): count the occurrences of `key` anywhere in
`obj` — recursing into matched values as well — and raise `TypeError` when
a matched value fails the `isinstance` check against `sample`. -/
def count_and_check_keys (obj : JSON) (key : String) (sample : JSON) :
    Except PyErr Nat :=
  match obj with
  | JSON.obj es => cack_entries es key sample
  | JSON.arr xs => cack_list xs key sample
  | _ => Except.ok 0

def cack_entries (es : List (String × JSON)) (key : String) (sample : JSON) :
    Except PyErr Nat :=
  match es with
  | [] => Except.ok 0
  | (k, v) :: rest =>
    if k = key then
      if isinstanceOf v sample then
        match count_and_check_keys v key sample with
        | Except.error e => Except.error e
        | Except.ok c2 =>
          match cack_entries rest key sample with
          | Except.error e => Except.error e
          | Except.ok c3 => Except.ok (1 + c2 + c3)
      else
        Except.error PyErr.typeMismatch
    else
      match count_and_check_keys v key sample with
      | Except.error e => Except.error e
      | Except.ok c2 =>
        match cack_entries rest key sample with
        | Except.error e => Except.error e
        | Except.ok c3 => Except.ok (c2 + c3)

def cack_list (xs : List JSON) (key : String) (sample : JSON) :
    Except PyErr Nat :=
  match xs with
  | [] => Except.ok 0
  | v :: rest =>
    match count_and_check_keys v key sample with
    | Except.error e => Except.error e
    | Except.ok c1 =>
      match cack_list rest key sample with
      | Except.error e => Except.error e
      | Except.ok c2 => Except.ok (c1 + c2)

end

mutual

/-- Pure occurrence count of `key` in a document, recursing everywhere
(also into matched values) — the number `count_and_check_keys` returns
when no type check fails. -/
def count_keys (key : String) : JSON → Nat
  | JSON.obj es => count_keys_entries key es
  | JSON.arr xs => count_keys_list key xs
  | _ => 0

def count_keys_entries (key : String) : List (String × JSON) → Nat
  | [] => 0
  | (k, v) :: rest =>
    (if k = key then 1 else 0) + count_keys key v + count_keys_entries key rest

def count_keys_list (key : String) : List JSON → Nat
  | [] => 0
  | v :: rest => count_keys key v + count_keys_list key rest

end

mutual

/-- Update pass of `update_all_json_key` (`update_key`, src/automate.py
lines 52-61): replace each matched key's value with the next value drawn
from the iterator (modelled by threading the remaining list) and do not
recurse into a matched value.  `none` models the uncaught `StopIteration`
`next` raises when the iterator is exhausted. -/
def update_key (key : String) : JSON → List JSON → Option (JSON × List JSON)
  | JSON.obj es, vals =>
    match update_key_entries key es vals with
    | none => none
    | some (es2, r) => some (JSON.obj es2, r)
  | JSON.arr xs, vals =>
    match update_key_list key xs vals with
    | none => none
    | some (xs2, r) => some (JSON.arr xs2, r)
  | v, vals => some (v, vals)

def update_key_entries (key : String) :
    List (String × JSON) → List JSON → Option (List (String × JSON) × List JSON)
  | [], vals => some ([], vals)
  | (k, v) :: rest, vals =>
    if k = key then
      match vals with
      | [] => none
      | newv :: vs =>
        match update_key_entries key rest vs with
        | none => none
        | some (es2, r) => some ((k, newv) :: es2, r)
    else
      match update_key key v vals with
      | none => none
      | some (v2, vs2) =>
        match update_key_entries key rest vs2 with
        | none => none
        | some (es2, r) => some ((k, v2) :: es2, r)

def update_key_list (key : String) : List JSON → List JSON → Option (List JSON × List JSON)
  | [], vals => some ([], vals)
  | v :: rest, vals =>
    match update_key key v vals with
    | none => none
    | some (v2, vs2) =>
      match update_key_list key rest vs2 with
      | none => none
      | some (xs2, r) => some (v2 :: xs2, r)

end

mutual

/-- Values sitting at the occurrences of `key`, in the deterministic
traversal order (map insertion order, then sequence order), not entering
a matched key's value — exactly the occurrences `update_key` rewrites. -/
def occ_values (key : String) : JSON → List JSON
  | JSON.obj es => occ_values_entries key es
  | JSON.arr xs => occ_values_list key xs
  | _ => []

def occ_values_entries (key : String) : List (String × JSON) → List JSON
  | [] => []
  | (k, v) :: rest =>
    if k = key then v :: occ_values_entries key rest
    else occ_values key v ++ occ_values_entries key rest

def occ_values_list (key : String) : List JSON → List JSON
  | [] => []
  | v :: rest => occ_values key v ++ occ_values_list key rest

end

mutual

/-- Values at all occurrences of `key`, recursing into matched values as
well, in the order `count_and_check_keys` visits them. -/
def occ_values_rec (key : String) : JSON → List JSON
  | JSON.obj es => occ_values_rec_entries key es
  | JSON.arr xs => occ_values_rec_list key xs
  | _ => []

def occ_values_rec_entries (key : String) : List (String × JSON) → List JSON
  | [] => []
  | (k, v) :: rest =>
    (if k = key then [v] else []) ++ occ_values_rec key v ++
      occ_values_rec_entries key rest

def occ_values_rec_list (key : String) : List JSON → List JSON
  | [] => []
  | v :: rest => occ_values_rec key v ++ occ_values_rec_list key rest

end

mutual

/-- The document with every (outermost) occurrence value of `key` replaced
by `null` — the context around the occurrences that `update_key` leaves
untouched. -/
def erase_occ (key : String) : JSON → JSON
  | JSON.obj es => JSON.obj (erase_occ_entries key es)
  | JSON.arr xs => JSON.arr (erase_occ_list key xs)
  | v => v

def erase_occ_entries (key : String) : List (String × JSON) → List (String × JSON)
  | [] => []
  | (k, v) :: rest =>
    if k = key then (k, JSON.null) :: erase_occ_entries key rest
    else (k, erase_occ key v) :: erase_occ_entries key rest

def erase_occ_list (key : String) : List JSON → List JSON
  | [] => []
  | v :: rest => erase_occ key v :: erase_occ_list key rest

end

/-- Model of `update_all_json_key` (src/automate.py lines 20-76).  Empty replacement
list: `ValueError`.  Dry run: count occurrences and type-check them against
`new_values[0]`.  A single-element list is repeated in place (`new_values
*= occurrences`, which mutates the caller's list — the second component of
the result is the caller's list after the call).  A length different from
the occurrence count: `ValueError`.  Then the update pass rewrites the
occurrences positionally. -/
def update_all_json_key (json_obj : JSON) (key : String)
    (new_values : List JSON) : Except PyErr (JSON × List JSON) :=
  match new_values with
  | [] => Except.error PyErr.emptyReplacement
  | v0 :: _ =>
    match count_and_check_keys json_obj key v0 with
    | Except.error e => Except.error e
    | Except.ok occurrences =>
      let nv := if new_values.length = 1 then List.replicate occurrences v0
                else new_values
      if nv.length = occurrences then
        match update_key key json_obj nv with
        | none => Except.error PyErr.stopIteration
        | some (doc2, _) => Except.ok (doc2, nv)
      else Except.error PyErr.countMismatch

/-- Structural shape of a document: which keys exist at which depth, with
every scalar collapsed to a leaf. -/
inductive Shape where
  | leaf : Shape
  | node : List (String × Shape) → Shape
  | seq  : List Shape → Shape

mutual

def shape : JSON → Shape
  | JSON.obj es => Shape.node (shape_entries es)
  | JSON.arr xs => Shape.seq (shape_list xs)
  | _ => Shape.leaf

def shape_entries : List (String × JSON) → List (String × Shape)
  | [] => []
  | (k, v) :: rest => (k, shape v) :: shape_entries rest

def shape_list : List JSON → List Shape
  | [] => []
  | v :: rest => shape v :: shape_list rest

end

def lookupShape (k : String) : List (String × Shape) → Option Shape
  | [] => none
  | (k2, s) :: rest => if k2 = k then some s else lookupShape k rest

mutual

/-- Shapes of the occurrence values of `key` (same traversal as
`occ_values`, computed on the shape alone). -/
def occ_shapes (key : String) : Shape → List Shape
  | Shape.node es => occ_shapes_entries key es
  | Shape.seq xs => occ_shapes_list key xs
  | _ => []

def occ_shapes_entries (key : String) : List (String × Shape) → List Shape
  | [] => []
  | (k, s) :: rest =>
    if k = key then s :: occ_shapes_entries key rest
    else occ_shapes key s ++ occ_shapes_entries key rest

def occ_shapes_list (key : String) : List Shape → List Shape
  | [] => []
  | s :: rest => occ_shapes key s ++ occ_shapes_list key rest

end

mutual

/-- Nesting depth of a document, used as recursion fuel for `pyEq`. -/
def jdepth : JSON → Nat
  | JSON.obj es => 1 + jdepth_entries es
  | JSON.arr xs => 1 + jdepth_list xs
  | _ => 1

def jdepth_entries : List (String × JSON) → Nat
  | [] => 0
  | (_, v) :: rest => max (jdepth v) (jdepth_entries rest)

def jdepth_list : List JSON → Nat
  | [] => 0
  | v :: rest => max (jdepth v) (jdepth_list rest)

end

/-- Python `==` on JSON-shaped values, with the fuel argument decreasing at
each nesting level: numeric cross-type equality between `bool` and `int`
(`True == 1`), order-insensitive dict equality, elementwise list equality.
`pyEq` supplies `jdepth` as fuel, which equals the nesting depth of its
first argument, so the fuel never runs out on actual values. -/
def pyEqF : Nat → JSON → JSON → Bool
  | 0, _, _ => false
  | Nat.succ fuel, a, b =>
    match a, b with
    | JSON.num x, JSON.num y => x == y
    | JSON.num x, JSON.bool y => x == (if y then 1 else 0)
    | JSON.bool x, JSON.num y => (if x then (1 : Int) else 0) == y
    | JSON.bool x, JSON.bool y => x == y
    | JSON.str x, JSON.str y => x == y
    | JSON.null, JSON.null => true
    | JSON.obj xs, JSON.obj ys =>
      xs.length == ys.length &&
        xs.all fun e =>
          match lookupVal e.1 ys with
          | some w => pyEqF fuel e.2 w
          | none => false
    | JSON.arr xs, JSON.arr ys =>
      xs.length == ys.length &&
        (List.zip xs ys).all fun p => pyEqF fuel p.1 p.2
    | _, _ => false

def pyEq (a b : JSON) : Bool := pyEqF (jdepth a) a b

mutual

/-- Python `repr` of a JSON-shaped value, used by `str()` on non-strings.
String escaping is not modelled: faithful for strings free of quotes,
backslashes and non-printable characters, which is all any claim needs. -/
def pyRepr : JSON → String
  | JSON.str s => "'" ++ s ++ "'"
  | JSON.num i => toString i
  | JSON.bool b => if b then "True" else "False"
  | JSON.null => "None"
  | JSON.obj es => "\x7b" ++ String.intercalate ", " (pyReprEntries es) ++ "\x7d"
  | JSON.arr xs => "[" ++ String.intercalate ", " (pyReprList xs) ++ "]"

def pyReprEntries : List (String × JSON) → List String
  | [] => []
  | (k, v) :: rest => ("'" ++ k ++ "': " ++ pyRepr v) :: pyReprEntries rest

def pyReprList : List JSON → List String
  | [] => []
  | v :: rest => pyRepr v :: pyReprList rest

end

/-- Python `str()`: identity on strings, `repr`-like otherwise (exact for
integers, booleans and `None`, which is all the code ever converts). -/
def pyStr : JSON → String
  | JSON.str s => s
  | v => pyRepr v

mutual

/-- Model of `update_all_json_key_func` (src/automate.py lines 78-95), transform
form: wherever a map contains `target` as a key, the callback is applied
to that value (the source invokes `update_func(json_obj, k)` on the
parent; all its callbacks only read or rewrite `json_obj[k]`, which this
models), the traversal does not recurse into the matched value, and all
other branches are traversed. -/
def update_all_json_key_func (target : String) (f : JSON → Except PyErr JSON) :
    JSON → Except PyErr JSON
  | JSON.obj es =>
    match uajkf_entries target f es with
    | Except.error e => Except.error e
    | Except.ok es2 => Except.ok (JSON.obj es2)
  | JSON.arr xs =>
    match uajkf_list target f xs with
    | Except.error e => Except.error e
    | Except.ok xs2 => Except.ok (JSON.arr xs2)
  | v => Except.ok v

def uajkf_entries (target : String) (f : JSON → Except PyErr JSON) :
    List (String × JSON) → Except PyErr (List (String × JSON))
  | [] => Except.ok []
  | (k, v) :: rest =>
    if k = target then
      match f v with
      | Except.error e => Except.error e
      | Except.ok v2 =>
        match uajkf_entries target f rest with
        | Except.error e => Except.error e
        | Except.ok es2 => Except.ok ((k, v2) :: es2)
    else
      match update_all_json_key_func target f v with
      | Except.error e => Except.error e
      | Except.ok v2 =>
        match uajkf_entries target f rest with
        | Except.error e => Except.error e
        | Except.ok es2 => Except.ok ((k, v2) :: es2)

def uajkf_list (target : String) (f : JSON → Except PyErr JSON) :
    List JSON → Except PyErr (List JSON)
  | [] => Except.ok []
  | v :: rest =>
    match update_all_json_key_func target f v with
    | Except.error e => Except.error e
    | Except.ok v2 =>
      match uajkf_list target f rest with
      | Except.error e => Except.error e
      | Except.ok xs2 => Except.ok (v2 :: xs2)

end

mutual

/-- Model of `update_all_json_key_func` used with a callback that appends data about
`obj[key]` to an external list (the `nodes`/`bindings` collectors of
src/automate.py lines 170 and 181): the per-occurrence results are
concatenated in traversal order. -/
def collect_by_key (target : String) (f : JSON → Except PyErr (List JSON)) :
    JSON → Except PyErr (List JSON)
  | JSON.obj es => collect_entries target f es
  | JSON.arr xs => collect_list target f xs
  | _ => Except.ok []

def collect_entries (target : String) (f : JSON → Except PyErr (List JSON)) :
    List (String × JSON) → Except PyErr (List JSON)
  | [] => Except.ok []
  | (k, v) :: rest =>
    if k = target then
      match f v with
      | Except.error e => Except.error e
      | Except.ok l1 =>
        match collect_entries target f rest with
        | Except.error e => Except.error e
        | Except.ok l2 => Except.ok (l1 ++ l2)
    else
      match collect_by_key target f v with
      | Except.error e => Except.error e
      | Except.ok l1 =>
        match collect_entries target f rest with
        | Except.error e => Except.error e
        | Except.ok l2 => Except.ok (l1 ++ l2)

def collect_list (target : String) (f : JSON → Except PyErr (List JSON)) :
    List JSON → Except PyErr (List JSON)
  | [] => Except.ok []
  | v :: rest =>
    match collect_by_key target f v with
    | Except.error e => Except.error e
    | Except.ok l1 =>
      match collect_list target f rest with
      | Except.error e => Except.error e
      | Except.ok l2 => Except.ok (l1 ++ l2)

end

/-- Model of `update_variable_value` (src/automate.py lines 159-163): in the given
dict, overwrite each entry whose key names an evaluated variable with the
string form of the variable's value. -/
def update_variable_value (vars : List (String × JSON))
    (es : List (String × JSON)) : List (String × JSON) :=
  es.map fun e =>
    match lookupVal e.1 vars with
    | some v => (e.1, JSON.str (pyStr v))
    | none => e

/-- The `Variables` broadcast of `configure_terrain_file` (src/automate.py
line 166): apply `update_variable_value` to the value under every key
named `Variables`; `.keys()` on a non-dict value raises
`AttributeError`. -/
def apply_variables (vars : List (String × JSON)) : JSON → Except PyErr JSON :=
  update_all_json_key_func "Variables" fun v =>
    match v with
    | JSON.obj ves => Except.ok (JSON.obj (update_variable_value vars ves))
    | _ => Except.error PyErr.attributeError

/-- Python subscription `v[k]` with a string key: dict lookup
(`KeyError` when absent), `TypeError` on anything that is not a dict. -/
def pyGet (v : JSON) (k : String) : Except PyErr JSON :=
  match v with
  | JSON.obj es =>
    match lookupVal k es with
    | some w => Except.ok w
    | none => Except.error (PyErr.keyError k)
  | _ => Except.error PyErr.typeError

/-- Python iteration (`list.extend(x)`): a list yields its items, a dict
its keys, a string its characters; anything else raises `TypeError`. -/
def pyIterVals : JSON → Except PyErr (List JSON)
  | JSON.arr xs => Except.ok xs
  | JSON.obj es => Except.ok (es.map fun e => JSON.str e.1)
  | JSON.str s => Except.ok (s.toList.map fun c => JSON.str (String.mk [c]))
  | _ => Except.error PyErr.typeError

/-- Binding collection (src/automate.py line 181): for every key named
`Bindings`, extend the list with `obj[key]['$values']`. -/
def collect_bindings : JSON → Except PyErr (List JSON) :=
  collect_by_key "Bindings" fun v =>
    match pyGet v "$values" with
    | Except.error e => Except.error e
    | Except.ok w => pyIterVals w

/-- Node collection (src/automate.py line 170): for every key named
`Nodes`, extend the list with `obj[key].values()`; `.values()` on a
non-dict raises `AttributeError`. -/
def collect_node_values : JSON → Except PyErr (List JSON) :=
  collect_by_key "Nodes" fun v =>
    match v with
    | JSON.obj es => Except.ok (es.map Prod.snd)
    | _ => Except.error PyErr.attributeError

def asDict : JSON → Option (List (String × JSON))
  | JSON.obj es => some es
  | _ => none

def matchesId (nes : List (String × JSON)) (nid : JSON) : Bool :=
  match lookupVal "Id" nes with
  | some idv => pyEq idv nid
  | none => false

/-- The mutation phase of `update_node_property`: the collected nodes alias
the document, so `node[property_name] = new_value` rewrites, inside every
`Nodes` dict, each node dict whose `Id` equals the target id. -/
def apply_node_updates (nid : JSON) (p : String) (nv : JSON) :
    JSON → Except PyErr JSON :=
  update_all_json_key_func "Nodes" fun v =>
    match v with
    | JSON.obj es =>
      Except.ok (JSON.obj (es.map fun e =>
        match e.2 with
        | JSON.obj nes =>
          if matchesId nes nid then (e.1, JSON.obj (dictSet nes p nv)) else e
        | _ => e))
    | _ => Except.ok v

/-- Model of `update_node_property` (src/automate.py lines 168-176): collect every
value of every `Nodes` dict, keep the dicts, and set `property_name` on
each whose `Id` equals `node_id`.  A node dict without an `Id` key makes
`node['Id']` raise `KeyError` (the model surfaces the error without the
partial mutation the source would leave behind, which no caller
observes because the exception aborts the run). -/
def update_node_property (doc : JSON) (node_id : JSON)
    (property_name : String) (new_value : JSON) : Except PyErr JSON :=
  match collect_node_values doc with
  | Except.error e => Except.error e
  | Except.ok vals =>
    let nodes := vals.filterMap asDict
    if nodes.all fun nd => (lookupVal "Id" nd).isSome then
      apply_node_updates node_id property_name new_value doc
    else
      Except.error (PyErr.keyError "Id")

/-- Membership test `binding['Variable'] in vars` followed by the lookup
`vars[binding['Variable']]`: the keys of `vars` are strings, so only a
string can match; dicts and lists are unhashable and raise `TypeError`;
other scalars are hashable but never equal a string key. -/
def pyVarsLookup (vars : List (String × JSON)) (v : JSON) :
    Except PyErr (Option JSON) :=
  match v with
  | JSON.str s => Except.ok (lookupVal s vars)
  | JSON.obj _ => Except.error PyErr.typeError
  | JSON.arr _ => Except.error PyErr.typeError
  | _ => Except.ok none

/-- The binding loop of `configure_terrain_file` (src/automate.py lines
183-190): for each binding record, skip it when its `Variable` is not in
the table, otherwise propagate `vars[binding['Variable']]` to every node
whose `Id` equals `binding['Node']`.  A non-string `Property` would be
used by Python as a non-string dict key, which the string-keyed model
cannot represent (`notModelled`). -/
def process_bindings (doc : JSON) (bindings : List JSON)
    (vars : List (String × JSON)) : Except PyErr JSON :=
  match bindings with
  | [] => Except.ok doc
  | b :: rest =>
    match pyGet b "Variable" with
    | Except.error e => Except.error e
    | Except.ok w =>
      match pyVarsLookup vars w with
      | Except.error e => Except.error e
      | Except.ok none => process_bindings doc rest vars
      | Except.ok (some value) =>
        match pyGet b "Node" with
        | Except.error e => Except.error e
        | Except.ok nid =>
          match pyGet b "Property" with
          | Except.error e => Except.error e
          | Except.ok pv =>
            match pv with
            | JSON.str p =>
              match update_node_property doc nid p value with
              | Except.error e => Except.error e
              | Except.ok doc2 => process_bindings doc2 rest vars
            | _ => Except.error PyErr.notModelled

/-- The phases of `configure_terrain_file` before binding propagation
(src/automate.py lines 152-166): set `PostBuildScript` everywhere to
`"@echo off"`, set `Destination` everywhere to the output path, then
broadcast the evaluated variables into every `Variables` dict. -/
def configure_stage1 (terrain_data : JSON) (output_filepath : String)
    (vars : List (String × JSON)) : Except PyErr JSON :=
  match update_all_json_key terrain_data "PostBuildScript" [JSON.str "@echo off"] with
  | Except.error e => Except.error e
  | Except.ok (t1, _) =>
    match update_all_json_key t1 "Destination" [JSON.str output_filepath] with
    | Except.error e => Except.error e
    | Except.ok (t2, _) => apply_variables vars t2

/-- Model of `configure_terrain_file` (src/automate.py lines 136-193): the three
broadcast phases, then collect the binding records under every `Bindings`
key and run the binding loop. -/
def configure_terrain_file (terrain_data : JSON) (output_filepath : String)
    (vars : List (String × JSON)) : Except PyErr JSON :=
  match configure_stage1 terrain_data output_filepath vars with
  | Except.error e => Except.error e
  | Except.ok t3 =>
    match collect_bindings t3 with
    | Except.error e => Except.error e
    | Except.ok bindings => process_bindings t3 bindings vars

/-- Python `str.split('=')` on the character list: splits at every `'='`
(no maxsplit), `"".split('=') == ['']`. -/
def splitEq : List Char → List (List Char)
  | [] => [[]]
  | c :: rest =>
    if c = '=' then [] :: splitEq rest
    else
      match splitEq rest with
      | [] => [[c]]
      | h :: t => (c :: h) :: t

def splitEqStr (s : String) : List String :=
  (splitEq s.toList).map fun l => String.mk l

def contains_from (pat : List Char) : List Char → Bool
  | [] => pat.isPrefixOf []
  | c :: rest => pat.isPrefixOf (c :: rest) || contains_from pat rest

/-- Python substring test `pat in s`. -/
def str_contains (s pat : String) : Bool :=
  contains_from pat.toList s.toList

def pyDigitsGo : List Char → Nat → Option Nat
  | [], acc => some acc
  | c :: rest, acc =>
    if c.isDigit then pyDigitsGo rest (acc * 10 + (c.toNat - 48))
    else
      if c = '_' then
        match rest with
        | [] => none
        | d :: rest2 =>
          if d.isDigit then pyDigitsGo rest2 (acc * 10 + (d.toNat - 48))
          else none
      else none

def pyDigits : List Char → Option Nat
  | [] => none
  | c :: rest => if c.isDigit then pyDigitsGo rest (c.toNat - 48) else none

/-- Python `int(s)` on ASCII input: strip surrounding whitespace, optional
sign, a nonempty digit run with single underscores allowed between
digits; anything else raises `ValueError` (modelled as `none`). -/
def pyInt (s : String) : Option Int :=
  let t := ((s.toList.dropWhile Char.isWhitespace).reverse.dropWhile
    Char.isWhitespace).reverse
  match t with
  | '+' :: r => (pyDigits r).map Int.ofNat
  | '-' :: r => (pyDigits r).map fun n => -(Int.ofNat n)
  | r => (pyDigits r).map Int.ofNat

/-- The loop of `evaluate_vars` (src/automate.py lines 112-129).  Each
assignment is split on every `'='`; anything but exactly two parts makes
the tuple unpacking raise an uncaught `ValueError`.  When the expression
contains `lambda` it is evaluated by the host language — modelled by the
oracle `ev`, with `none` standing for any raised exception, which the
source catches and logs, omitting the variable.  Otherwise the expression
must parse as an integer, a failure again being caught and the variable
omitted.  Successful values are stored with `vars[var_name] = value`. -/
def evaluate_vars_loop (ev : String → Option JSON) (assignments : List String)
    (vars : List (String × JSON)) : Except PyErr (List (String × JSON)) :=
  match assignments with
  | [] => Except.ok vars
  | a :: rest =>
    match splitEqStr a with
    | [var_name, var_expression] =>
      if str_contains var_expression "lambda" then
        match ev var_expression with
        | some v => evaluate_vars_loop ev rest (dictSet vars var_name v)
        | none => evaluate_vars_loop ev rest vars
      else
        match pyInt var_expression with
        | some i => evaluate_vars_loop ev rest (dictSet vars var_name (JSON.num i))
        | none => evaluate_vars_loop ev rest vars
    | _ => Except.error PyErr.unpackError

/-- Model of `evaluate_vars` (src/automate.py lines 97-132) on the `-var` assignment
strings, starting from the empty table. -/
def evaluate_vars (ev : String → Option JSON) (assignments : List String) :
    Except PyErr (List (String × JSON)) :=
  evaluate_vars_loop ev assignments []

/-- Condition on the shape of a `Variables` dict: every entry whose key
names an evaluated variable holds a scalar, so that overwriting it with
the string form of the variable keeps the shape. -/
def varShapeOk (vars : List (String × JSON)) (sh : Shape) : Prop :=
  ∀ es, sh = Shape.node es →
    ∀ e ∈ es, (lookupVal e.1 vars).isSome → e.2 = Shape.leaf

/-- Condition on a document shape for property `p`: every node map found
directly under a `Nodes` collection already carries `p`, with a scalar
value, so that `node[p] = value` replaces instead of adding a key. -/
def nodesPropOk (p : String) (sh : Shape) : Prop :=
  ∀ t ∈ occ_shapes "Nodes" sh, ∀ es, t = Shape.node es →
    ∀ e ∈ es, ∀ nes, e.2 = Shape.node nes →
      (lookupShape p nes).isSome ∧ ∀ e2 ∈ nes, e2.1 = p → e2.2 = Shape.leaf

/-- C1 counterexample input: the key `K` occurs twice, once nested inside
the other occurrence's value, and every occurrence value is a dict. -/
def c1doc : JSON := JSON.obj [("K", JSON.obj [("K", JSON.obj [])])]

def c1v1 : JSON := JSON.obj [("a", JSON.num 1)]

def c1v2 : JSON := JSON.obj [("b", JSON.num 2)]

/-- What `update_all_json_key c1doc "K" [c1v1, c1v2]` produces: the outer
occurrence is set to `c1v1` and the nested occurrence is gone. -/
def c1res : JSON := JSON.obj [("K", c1v1)]

/-- C1 witness input: `K` occurs twice, at depth two and at the top level,
with no nesting of one occurrence inside another. -/
def c1wdoc : JSON :=
  JSON.obj [("A", JSON.obj [("K", JSON.num 1)]), ("K", JSON.num 2)]

/-- The end-to-end document of spec §8 (claim C2). -/
def c2doc : JSON := JSON.obj [
  ("Nodes", JSON.obj [("a", JSON.obj [("Id", JSON.num 1), ("Seed", JSON.num 0)])]),
  ("Bindings", JSON.obj [("$values", JSON.arr [JSON.obj
    [("Node", JSON.num 1), ("Property", JSON.str "Seed"),
     ("Variable", JSON.str "s")]])]),
  ("Variables", JSON.obj [("s", JSON.str "0")])]

/-- What `configure_terrain_file` actually produces on `c2doc` with
`vars = [("s", 42)]`: the node's `Seed` receives the raw integer `42`
(`update_node_property` assigns `vars[...]` without `str()`), while the
`Variables` entry receives the string `"42"`. -/
def c2res : JSON := JSON.obj [
  ("Nodes", JSON.obj [("a", JSON.obj [("Id", JSON.num 1), ("Seed", JSON.num 42)])]),
  ("Bindings", JSON.obj [("$values", JSON.arr [JSON.obj
    [("Node", JSON.num 1), ("Property", JSON.str "Seed"),
     ("Variable", JSON.str "s")]])]),
  ("Variables", JSON.obj [("s", JSON.str "42")])]

/-- C3 failing input: the `Destination` key sits one level below the root,
inside a nested dict that `dict.copy()` shares with the original. -/
def c3doc : JSON := JSON.obj [("A", JSON.obj [("Destination", JSON.str "old")])]

def c3res : JSON :=
  JSON.obj [("A", JSON.obj [("Destination", JSON.str "/run1/out")])]

/-- C5 counterexample input: the bound node exists but lacks the `Seed`
property named by the binding. -/
def c5doc : JSON := JSON.obj [
  ("Nodes", JSON.obj [("a", JSON.obj [("Id", JSON.num 1)])]),
  ("Bindings", JSON.obj [("$values", JSON.arr [JSON.obj
    [("Node", JSON.num 1), ("Property", JSON.str "Seed"),
     ("Variable", JSON.str "s")]])])]

/-- What the patch pass produces on `c5doc`: the `Seed` key is added to
node `a`, altering the structural shape. -/
def c5res : JSON := JSON.obj [
  ("Nodes", JSON.obj [("a", JSON.obj [("Id", JSON.num 1), ("Seed", JSON.num 42)])]),
  ("Bindings", JSON.obj [("$values", JSON.arr [JSON.obj
    [("Node", JSON.num 1), ("Property", JSON.str "Seed"),
     ("Variable", JSON.str "s")]])])]

/-- C5 witness document: destination, post-build script, variables and the
bound node property all already exist with scalar values. -/
def c5wdoc : JSON := JSON.obj [
  ("PostBuildScript", JSON.str "old.bat"),
  ("Destination", JSON.str "olddest"),
  ("Nodes", JSON.obj [("n", JSON.obj [("Id", JSON.num 1), ("Seed", JSON.num 0)])]),
  ("Bindings", JSON.obj [("$values", JSON.arr [JSON.obj
    [("Node", JSON.num 1), ("Property", JSON.str "Seed"),
     ("Variable", JSON.str "s")]])]),
  ("Variables", JSON.obj [("s", JSON.str "0")])]

/-- The patched form of `c5wdoc` for output path `/out` and `s = 9`. -/
def c5wres : JSON := JSON.obj [
  ("PostBuildScript", JSON.str "@echo off"),
  ("Destination", JSON.str "/out"),
  ("Nodes", JSON.obj [("n", JSON.obj [("Id", JSON.num 1), ("Seed", JSON.num 9)])]),
  ("Bindings", JSON.obj [("$values", JSON.arr [JSON.obj
    [("Node", JSON.num 1), ("Property", JSON.str "Seed"),
     ("Variable", JSON.str "s")]])]),
  ("Variables", JSON.obj [("s", JSON.str "9")])]

/-- C8 counterexample input: the only node map has no `Id` key, so the
binding matches no node; `node['Id']` raises `KeyError`. -/
def c8doc : JSON := JSON.obj [
  ("Nodes", JSON.obj [("b", JSON.obj [("Seed", JSON.num 0)])]),
  ("Bindings", JSON.obj [("$values", JSON.arr [JSON.obj
    [("Node", JSON.num 7), ("Property", JSON.str "Seed"),
     ("Variable", JSON.str "t")]])])]

/-- C8 witness document: one well-formed node with `Id` 1. -/
def c8wdoc : JSON :=
  JSON.obj [("Nodes", JSON.obj [("a",
    JSON.obj [("Id", JSON.num 1), ("Seed", JSON.num 0)])])]

/-- C8 witness binding: references node id 99, which no node carries. -/
def c8wbinding : JSON := JSON.obj
  [("Node", JSON.num 99), ("Property", JSON.str "Seed"),
   ("Variable", JSON.str "s")]

/-- A second C8 binding whose variable is bound, used to show the
remaining bindings still apply after the skipped one. -/
def c8wbinding2 : JSON := JSON.obj
  [("Node", JSON.num 1), ("Property", JSON.str "Seed"),
   ("Variable", JSON.str "s")]

example :
    count_keys "a" (JSON.obj [("a", JSON.obj [("a", JSON.null)])]) = 2 := rfl

example :
    update_all_json_key (JSON.obj [("a", JSON.num 1), ("b", JSON.num 2)]) "a"
      [JSON.num 7] =
    Except.ok (JSON.obj [("a", JSON.num 7), ("b", JSON.num 2)], [JSON.num 7]) := rfl

example : evaluate_vars (fun _ => none) ["x=5"] =
    Except.ok [("x", JSON.num 5)] := rfl

example : evaluate_vars (fun _ => none) ["x=1=2"] =
    Except.error PyErr.unpackError := rfl

mutual

/-- Simultaneous induction over documents, map entry lists and sequence
element lists, used throughout in place of the nested recursor. -/
theorem json_ind (P : JSON → Prop) (Q : List (String × JSON) → Prop)
    (R : List JSON → Prop)
    (h1 : ∀ s, P (JSON.str s)) (h2 : ∀ i, P (JSON.num i))
    (h3 : ∀ b, P (JSON.bool b)) (h4 : P JSON.null)
    (h5 : ∀ es, Q es → P (JSON.obj es)) (h6 : ∀ xs, R xs → P (JSON.arr xs))
    (h7 : Q []) (h8 : ∀ k v rest, P v → Q rest → Q ((k, v) :: rest))
    (h9 : R []) (h10 : ∀ v rest, P v → R rest → R (v :: rest)) :
    ∀ v, P v
  | JSON.str s => h1 s
  | JSON.num i => h2 i
  | JSON.bool b => h3 b
  | JSON.null => h4
  | JSON.obj es =>
    h5 es (json_ind_entries P Q R h1 h2 h3 h4 h5 h6 h7 h8 h9 h10 es)
  | JSON.arr xs =>
    h6 xs (json_ind_list P Q R h1 h2 h3 h4 h5 h6 h7 h8 h9 h10 xs)

theorem json_ind_entries (P : JSON → Prop) (Q : List (String × JSON) → Prop)
    (R : List JSON → Prop)
    (h1 : ∀ s, P (JSON.str s)) (h2 : ∀ i, P (JSON.num i))
    (h3 : ∀ b, P (JSON.bool b)) (h4 : P JSON.null)
    (h5 : ∀ es, Q es → P (JSON.obj es)) (h6 : ∀ xs, R xs → P (JSON.arr xs))
    (h7 : Q []) (h8 : ∀ k v rest, P v → Q rest → Q ((k, v) :: rest))
    (h9 : R []) (h10 : ∀ v rest, P v → R rest → R (v :: rest)) :
    ∀ es, Q es
  | [] => h7
  | (k, v) :: rest =>
    h8 k v rest (json_ind P Q R h1 h2 h3 h4 h5 h6 h7 h8 h9 h10 v)
      (json_ind_entries P Q R h1 h2 h3 h4 h5 h6 h7 h8 h9 h10 rest)

theorem json_ind_list (P : JSON → Prop) (Q : List (String × JSON) → Prop)
    (R : List JSON → Prop)
    (h1 : ∀ s, P (JSON.str s)) (h2 : ∀ i, P (JSON.num i))
    (h3 : ∀ b, P (JSON.bool b)) (h4 : P JSON.null)
    (h5 : ∀ es, Q es → P (JSON.obj es)) (h6 : ∀ xs, R xs → P (JSON.arr xs))
    (h7 : Q []) (h8 : ∀ k v rest, P v → Q rest → Q ((k, v) :: rest))
    (h9 : R []) (h10 : ∀ v rest, P v → R rest → R (v :: rest)) :
    ∀ xs, R xs
  | [] => h9
  | v :: rest =>
    h10 v rest (json_ind P Q R h1 h2 h3 h4 h5 h6 h7 h8 h9 h10 v)
      (json_ind_list P Q R h1 h2 h3 h4 h5 h6 h7 h8 h9 h10 rest)

end

theorem occ_length_le_count (key : String) :
    ∀ D, (occ_values key D).length ≤ count_keys key D := by
  refine json_ind _
    (fun es => (occ_values_entries key es).length ≤ count_keys_entries key es)
    (fun xs => (occ_values_list key xs).length ≤ count_keys_list key xs)
    ?_ ?_ ?_ ?_ ?_ ?_ ?_ ?_ ?_ ?_ <;>
    intros <;>
    simp_all [occ_values, occ_values_entries, occ_values_list, count_keys,
      count_keys_entries, count_keys_list]
  · rename_i k v rest h1 h2
    by_cases hk : k = key <;> simp [hk] <;> omega
  · omega

theorem occ_sub_rec (key : String) :
    ∀ D, ∀ w ∈ occ_values key D, w ∈ occ_values_rec key D := by
  refine json_ind _
    (fun es => ∀ w ∈ occ_values_entries key es, w ∈ occ_values_rec_entries key es)
    (fun xs => ∀ w ∈ occ_values_list key xs, w ∈ occ_values_rec_list key xs)
    ?_ ?_ ?_ ?_ ?_ ?_ ?_ ?_ ?_ ?_
  · intro s; simp [occ_values, occ_values_rec]
  · intro i; simp [occ_values, occ_values_rec]
  · intro b; simp [occ_values, occ_values_rec]
  · simp [occ_values, occ_values_rec]
  · intro es h; simpa [occ_values, occ_values_rec] using h
  · intro xs h; simpa [occ_values, occ_values_rec] using h
  · simp [occ_values_entries]
  · intro k v rest ihv ihrest w hw
    by_cases hk : k = key
    · simp only [occ_values_entries, occ_values_rec_entries, hk, if_true,
        eq_self_iff_true, List.mem_cons, List.mem_append, List.mem_singleton] at hw ⊢
      rcases hw with rfl | hw
      · tauto
      · have := ihrest w hw; tauto
    · simp only [occ_values_entries, occ_values_rec_entries, hk, if_false,
        ite_false, List.mem_append, List.nil_append] at hw ⊢
      rcases hw with hw | hw
      · exact Or.inl (ihv w hw)
      · exact Or.inr (ihrest w hw)
  · simp [occ_values_list]
  · intro v rest ihv ihrest w hw
    simp only [occ_values_list, occ_values_rec_list, List.mem_append] at hw ⊢
    rcases hw with hw | hw
    · exact Or.inl (ihv w hw)
    · exact Or.inr (ihrest w hw)

theorem count0_rec_nil (key : String) :
    ∀ D, count_keys key D = 0 → occ_values_rec key D = [] := by
  refine json_ind _
    (fun es => count_keys_entries key es = 0 → occ_values_rec_entries key es = [])
    (fun xs => count_keys_list key xs = 0 → occ_values_rec_list key xs = [])
    ?_ ?_ ?_ ?_ ?_ ?_ ?_ ?_ ?_ ?_
  · intro s _; simp [occ_values_rec]
  · intro i _; simp [occ_values_rec]
  · intro b _; simp [occ_values_rec]
  · intro _; simp [occ_values_rec]
  · intro es ih h
    simp only [count_keys] at h
    simp [occ_values_rec, ih h]
  · intro xs ih h
    simp only [count_keys] at h
    simp [occ_values_rec, ih h]
  · intro _; simp [occ_values_rec_entries]
  · intro k v rest ihv ihrest h
    simp only [count_keys_entries] at h
    by_cases hk : k = key
    · simp [hk] at h
    · simp only [hk, if_false, ite_false, Nat.zero_add] at h
      simp only [occ_values_rec_entries, hk, if_false, ite_false]
      simp [ihv (by omega), ihrest (by omega)]
  · intro _; simp [occ_values_rec_list]
  · intro v rest ihv ihrest h
    simp only [count_keys_list] at h
    simp only [occ_values_rec_list]
    simp [ihv (by omega), ihrest (by omega)]

theorem cack_spec (key : String) (sample : JSON) :
    ∀ D, ((∀ w ∈ occ_values_rec key D, isinstanceOf w sample = true) ∧
        count_and_check_keys D key sample = Except.ok (count_keys key D)) ∨
      ((∃ w ∈ occ_values_rec key D, isinstanceOf w sample = false) ∧
        count_and_check_keys D key sample = Except.error PyErr.typeMismatch) := by
  refine json_ind _
    (fun es => ((∀ w ∈ occ_values_rec_entries key es, isinstanceOf w sample = true) ∧
        cack_entries es key sample = Except.ok (count_keys_entries key es)) ∨
      ((∃ w ∈ occ_values_rec_entries key es, isinstanceOf w sample = false) ∧
        cack_entries es key sample = Except.error PyErr.typeMismatch))
    (fun xs => ((∀ w ∈ occ_values_rec_list key xs, isinstanceOf w sample = true) ∧
        cack_list xs key sample = Except.ok (count_keys_list key xs)) ∨
      ((∃ w ∈ occ_values_rec_list key xs, isinstanceOf w sample = false) ∧
        cack_list xs key sample = Except.error PyErr.typeMismatch))
    ?_ ?_ ?_ ?_ ?_ ?_ ?_ ?_ ?_ ?_
  · intro s; left
    simp [occ_values_rec, count_and_check_keys, count_keys]
  · intro i; left
    simp [occ_values_rec, count_and_check_keys, count_keys]
  · intro b; left
    simp [occ_values_rec, count_and_check_keys, count_keys]
  · left; simp [occ_values_rec, count_and_check_keys, count_keys]
  · intro es ih
    rcases ih with ⟨h1, h2⟩ | ⟨h1, h2⟩
    · left; exact ⟨by simpa [occ_values_rec] using h1,
        by simpa [count_and_check_keys, count_keys] using h2⟩
    · right; exact ⟨by simpa [occ_values_rec] using h1,
        by simpa [count_and_check_keys] using h2⟩
  · intro xs ih
    rcases ih with ⟨h1, h2⟩ | ⟨h1, h2⟩
    · left; exact ⟨by simpa [occ_values_rec] using h1,
        by simpa [count_and_check_keys, count_keys] using h2⟩
    · right; exact ⟨by simpa [occ_values_rec] using h1,
        by simpa [count_and_check_keys] using h2⟩
  · left; simp [occ_values_rec_entries, cack_entries, count_keys_entries]
  · intro k v rest ihv ihrest
    by_cases hk : k = key
    · by_cases hii : isinstanceOf v sample = true
      · rcases ihv with ⟨hv1, hv2⟩ | ⟨hv1, hv2⟩
        · rcases ihrest with ⟨hr1, hr2⟩ | ⟨hr1, hr2⟩
          · left
            constructor
            · intro w hw
              simp only [occ_values_rec_entries, hk, if_true, eq_self_iff_true,
                List.mem_append, List.mem_singleton] at hw
              rcases hw with (rfl | hw) | hw
              · exact hii
              · exact hv1 w hw
              · exact hr1 w hw
            · simp [cack_entries, hk, hii, hv2, hr2, count_keys_entries]
          · right
            constructor
            · rcases hr1 with ⟨w, hw, hwf⟩
              exact ⟨w, by simp [occ_values_rec_entries, hk, hw], hwf⟩
            · simp [cack_entries, hk, hii, hv2, hr2]
        · right
          constructor
          · rcases hv1 with ⟨w, hw, hwf⟩
            exact ⟨w, by simp [occ_values_rec_entries, hk, hw], hwf⟩
          · simp [cack_entries, hk, hii, hv2]
      · right
        constructor
        · exact ⟨v, by simp [occ_values_rec_entries, hk],
            by simpa using hii⟩
        · simp [cack_entries, hk, hii]
    · rcases ihv with ⟨hv1, hv2⟩ | ⟨hv1, hv2⟩
      · rcases ihrest with ⟨hr1, hr2⟩ | ⟨hr1, hr2⟩
        · left
          constructor
          · intro w hw
            simp only [occ_values_rec_entries, hk, if_false, ite_false,
              List.mem_append, List.nil_append] at hw
            rcases hw with hw | hw
            · exact hv1 w hw
            · exact hr1 w hw
          · simp [cack_entries, hk, hv2, hr2, count_keys_entries]
        · right
          constructor
          · rcases hr1 with ⟨w, hw, hwf⟩
            exact ⟨w, by simp [occ_values_rec_entries, hk, hw], hwf⟩
          · simp [cack_entries, hk, hv2, hr2]
      · right
        constructor
        · rcases hv1 with ⟨w, hw, hwf⟩
          exact ⟨w, by simp [occ_values_rec_entries, hk, hw], hwf⟩
        · simp [cack_entries, hk, hv2]
  · left; simp [occ_values_rec_list, cack_list, count_keys_list]
  · intro v rest ihv ihrest
    rcases ihv with ⟨hv1, hv2⟩ | ⟨hv1, hv2⟩
    · rcases ihrest with ⟨hr1, hr2⟩ | ⟨hr1, hr2⟩
      · left
        constructor
        · intro w hw
          simp only [occ_values_rec_list, List.mem_append] at hw
          rcases hw with hw | hw
          · exact hv1 w hw
          · exact hr1 w hw
        · simp [cack_list, hv2, hr2, count_keys_list]
      · right
        constructor
        · rcases hr1 with ⟨w, hw, hwf⟩
          exact ⟨w, by simp [occ_values_rec_list, hw], hwf⟩
        · simp [cack_list, hv2, hr2]
    · right
      constructor
      · rcases hv1 with ⟨w, hw, hwf⟩
        exact ⟨w, by simp [occ_values_rec_list, hw], hwf⟩
      · simp [cack_list, hv2]

theorem cack_err_type (key : String) (sample : JSON) (D : JSON) (e : PyErr)
    (h : count_and_check_keys D key sample = Except.error e) :
    e = PyErr.typeMismatch := by
  rcases cack_spec key sample D with ⟨_, h2⟩ | ⟨_, h2⟩ <;> rw [h] at h2
  · exact absurd h2 (by simp)
  · exact (Except.error.injEq _ _).mp h2

theorem cack_ok_count (key : String) (sample : JSON) (D : JSON) (n : Nat)
    (h : count_and_check_keys D key sample = Except.ok n) :
    n = count_keys key D := by
  rcases cack_spec key sample D with ⟨_, h2⟩ | ⟨_, h2⟩ <;> rw [h] at h2
  · exact (Except.ok.injEq _ _).mp h2
  · exact absurd h2 (by simp)

theorem cack_ok_isinst (key : String) (sample : JSON) (D : JSON) (n : Nat)
    (h : count_and_check_keys D key sample = Except.ok n) :
    ∀ w ∈ occ_values_rec key D, isinstanceOf w sample = true := by
  rcases cack_spec key sample D with ⟨h1, _⟩ | ⟨_, h2⟩
  · exact h1
  · rw [h] at h2; exact absurd h2 (by simp)

theorem nonest_spec (key : String) :
    ∀ D, (∀ w ∈ occ_values key D, count_keys key w = 0) →
      occ_values_rec key D = occ_values key D ∧
        count_keys key D = (occ_values key D).length := by
  refine json_ind _
    (fun es => (∀ w ∈ occ_values_entries key es, count_keys key w = 0) →
      occ_values_rec_entries key es = occ_values_entries key es ∧
        count_keys_entries key es = (occ_values_entries key es).length)
    (fun xs => (∀ w ∈ occ_values_list key xs, count_keys key w = 0) →
      occ_values_rec_list key xs = occ_values_list key xs ∧
        count_keys_list key xs = (occ_values_list key xs).length)
    ?_ ?_ ?_ ?_ ?_ ?_ ?_ ?_ ?_ ?_
  · intro s _; simp [occ_values, occ_values_rec, count_keys]
  · intro i _; simp [occ_values, occ_values_rec, count_keys]
  · intro b _; simp [occ_values, occ_values_rec, count_keys]
  · intro _; simp [occ_values, occ_values_rec, count_keys]
  · intro es ih h
    have := ih (by simpa [occ_values] using h)
    simpa [occ_values, occ_values_rec, count_keys] using this
  · intro xs ih h
    have := ih (by simpa [occ_values] using h)
    simpa [occ_values, occ_values_rec, count_keys] using this
  · intro _; simp [occ_values_entries, occ_values_rec_entries, count_keys_entries]
  · intro k v rest ihv ihrest h
    by_cases hk : k = key
    · simp only [occ_values_entries, hk, if_true, eq_self_iff_true] at h ⊢
      have hv0 : count_keys key v = 0 := h v (by simp)
      have hrest := ihrest fun w hw => h w (by simp [hw])
      constructor
      · simp only [occ_values_rec_entries, eq_self_iff_true, if_true,
          count0_rec_nil key v hv0, hrest.1]
        simp
      · simp only [count_keys_entries, eq_self_iff_true, if_true, hv0, hrest.2]
        simp [Nat.add_comm]
    · simp only [occ_values_entries, hk, if_false, ite_false] at h ⊢
      have hv := ihv fun w hw => h w (by simp [hw])
      have hrest := ihrest fun w hw => h w (by simp [hw])
      constructor
      · simp only [occ_values_rec_entries, hk, if_false, ite_false, hv.1,
          hrest.1]
        simp
      · simp only [count_keys_entries, hk, if_false, ite_false, hv.2, hrest.2]
        simp
  · intro _; simp [occ_values_list, occ_values_rec_list, count_keys_list]
  · intro v rest ihv ihrest h
    simp only [occ_values_list] at h ⊢
    have hv := ihv fun w hw => h w (by simp [hw])
    have hrest := ihrest fun w hw => h w (by simp [hw])
    constructor
    · simp only [occ_values_rec_list, hv.1, hrest.1]
    · simp only [count_keys_list, hv.2, hrest.2]
      simp

theorem update_key_spec (key : String) :
    ∀ (D : JSON) (vals : List JSON),
      (occ_values key D).length ≤ vals.length →
      ∃ D', update_key key D vals =
          some (D', vals.drop (occ_values key D).length) ∧
        occ_values key D' = vals.take (occ_values key D).length ∧
        erase_occ key D' = erase_occ key D ∧
        ((∀ v ∈ vals, shape v = Shape.leaf) →
          (∀ w ∈ occ_values key D, shape w = Shape.leaf) →
          shape D' = shape D) := by
  refine json_ind
    (fun D => ∀ vals, (occ_values key D).length ≤ vals.length →
      ∃ D', update_key key D vals =
          some (D', vals.drop (occ_values key D).length) ∧
        occ_values key D' = vals.take (occ_values key D).length ∧
        erase_occ key D' = erase_occ key D ∧
        ((∀ v ∈ vals, shape v = Shape.leaf) →
          (∀ w ∈ occ_values key D, shape w = Shape.leaf) → shape D' = shape D))
    (fun es => ∀ vals, (occ_values_entries key es).length ≤ vals.length →
      ∃ es', update_key_entries key es vals =
          some (es', vals.drop (occ_values_entries key es).length) ∧
        occ_values_entries key es' =
          vals.take (occ_values_entries key es).length ∧
        erase_occ_entries key es' = erase_occ_entries key es ∧
        ((∀ v ∈ vals, shape v = Shape.leaf) →
          (∀ w ∈ occ_values_entries key es, shape w = Shape.leaf) →
          shape_entries es' = shape_entries es))
    (fun xs => ∀ vals, (occ_values_list key xs).length ≤ vals.length →
      ∃ xs', update_key_list key xs vals =
          some (xs', vals.drop (occ_values_list key xs).length) ∧
        occ_values_list key xs' =
          vals.take (occ_values_list key xs).length ∧
        erase_occ_list key xs' = erase_occ_list key xs ∧
        ((∀ v ∈ vals, shape v = Shape.leaf) →
          (∀ w ∈ occ_values_list key xs, shape w = Shape.leaf) →
          shape_list xs' = shape_list xs))
    ?_ ?_ ?_ ?_ ?_ ?_ ?_ ?_ ?_ ?_
  · intro s vals _
    exact ⟨JSON.str s, by simp [update_key, occ_values], by simp [occ_values],
      rfl, fun _ _ => rfl⟩
  · intro i vals _
    exact ⟨JSON.num i, by simp [update_key, occ_values], by simp [occ_values],
      rfl, fun _ _ => rfl⟩
  · intro b vals _
    exact ⟨JSON.bool b, by simp [update_key, occ_values], by simp [occ_values],
      rfl, fun _ _ => rfl⟩
  · intro vals _
    exact ⟨JSON.null, by simp [update_key, occ_values], by simp [occ_values],
      rfl, fun _ _ => rfl⟩
  · intro es ih vals hlen
    simp only [occ_values] at hlen
    rcases ih vals hlen with ⟨es', h1, h2, h3, h4⟩
    refine ⟨JSON.obj es', ?_, ?_, ?_, ?_⟩
    · simp [update_key, h1, occ_values]
    · simp [occ_values, h2]
    · simp [erase_occ, h3]
    · intro hv hw
      simp only [shape]
      rw [h4 hv (by simpa [occ_values] using hw)]
  · intro xs ih vals hlen
    simp only [occ_values] at hlen
    rcases ih vals hlen with ⟨xs', h1, h2, h3, h4⟩
    refine ⟨JSON.arr xs', ?_, ?_, ?_, ?_⟩
    · simp [update_key, h1, occ_values]
    · simp [occ_values, h2]
    · simp [erase_occ, h3]
    · intro hv hw
      simp only [shape]
      rw [h4 hv (by simpa [occ_values] using hw)]
  · intro vals _
    exact ⟨[], by simp [update_key_entries, occ_values_entries],
      by simp [occ_values_entries], rfl, fun _ _ => rfl⟩
  · intro k v rest ihv ihrest vals hlen
    by_cases hk : k = key
    · simp only [occ_values_entries, hk, if_true, eq_self_iff_true,
        List.length_cons] at hlen ⊢
      match vals, hlen with
      | u :: vs, hlen =>
        have hlen' : (occ_values_entries key rest).length ≤ vs.length := by
          simpa using Nat.le_of_succ_le_succ hlen
        rcases ihrest vs hlen' with ⟨es2, h1, h2, h3, h4⟩
        refine ⟨(key, u) :: es2, ?_, ?_, ?_, ?_⟩
        · simp [update_key_entries, h1, List.drop_succ_cons]
        · simp [occ_values_entries, h2, List.take_succ_cons]
        · simp [erase_occ_entries, h3]
        · intro hv hw
          simp only [shape_entries]
          rw [h4 (fun x hx => hv x (by simp [hx]))
            (fun w hw2 => hw w (by simp [hw2]))]
          rw [hv u (by simp), hw v (by simp)]
    · simp only [occ_values_entries, hk, if_false, ite_false,
        List.length_append] at hlen ⊢
      have hlv : (occ_values key v).length ≤ vals.length := by omega
      rcases ihv vals hlv with ⟨v', hv1, hv2, hv3, hv4⟩
      have hlr : (occ_values_entries key rest).length ≤
          (vals.drop (occ_values key v).length).length := by
        simp [List.length_drop]; omega
      rcases ihrest (vals.drop (occ_values key v).length) hlr with
        ⟨es2, h1, h2, h3, h4⟩
      refine ⟨(k, v') :: es2, ?_, ?_, ?_, ?_⟩
      · simp [update_key_entries, hk, hv1, h1, List.drop_drop, Nat.add_comm]
      · simp only [occ_values_entries, hk, if_false, ite_false, hv2, h2]
        rw [← List.take_add]
      · simp [erase_occ_entries, hk, hv3, h3]
      · intro hv hw
        simp only [shape_entries]
        rw [hv4 hv (fun w hw2 => hw w (by simp [hw2]))]
        rw [h4 (fun x hx => hv x (List.drop_subset _ _ hx))
          (fun w hw2 => hw w (by simp [hw2]))]
  · intro vals _
    exact ⟨[], by simp [update_key_list, occ_values_list],
      by simp [occ_values_list], rfl, fun _ _ => rfl⟩
  · intro v rest ihv ihrest vals hlen
    simp only [occ_values_list, List.length_append] at hlen ⊢
    have hlv : (occ_values key v).length ≤ vals.length := by omega
    rcases ihv vals hlv with ⟨v', hv1, hv2, hv3, hv4⟩
    have hlr : (occ_values_list key rest).length ≤
        (vals.drop (occ_values key v).length).length := by
      simp [List.length_drop]; omega
    rcases ihrest (vals.drop (occ_values key v).length) hlr with
      ⟨xs2, h1, h2, h3, h4⟩
    refine ⟨v' :: xs2, ?_, ?_, ?_, ?_⟩
    · simp [update_key_list, hv1, h1, List.drop_drop, Nat.add_comm]
    · simp only [occ_values_list, hv2, h2]
      rw [← List.take_add]
    · simp [erase_occ_list, hv3, h3]
    · intro hv hw
      simp only [shape_list]
      rw [hv4 hv (fun w hw2 => hw w (by simp [hw2]))]
      rw [h4 (fun x hx => hv x (List.drop_subset _ _ hx))
        (fun w hw2 => hw w (by simp [hw2]))]

theorem update_key_nil_id (key : String) :
    ∀ D, occ_values key D = [] →
      ∀ vals, update_key key D vals = some (D, vals) := by
  refine json_ind _
    (fun es => occ_values_entries key es = [] →
      ∀ vals, update_key_entries key es vals = some (es, vals))
    (fun xs => occ_values_list key xs = [] →
      ∀ vals, update_key_list key xs vals = some (xs, vals))
    ?_ ?_ ?_ ?_ ?_ ?_ ?_ ?_ ?_ ?_
  · intro s _ vals; simp [update_key]
  · intro i _ vals; simp [update_key]
  · intro b _ vals; simp [update_key]
  · intro _ vals; simp [update_key]
  · intro es ih h vals
    simp only [occ_values] at h
    simp [update_key, ih h vals]
  · intro xs ih h vals
    simp only [occ_values] at h
    simp [update_key, ih h vals]
  · intro _ vals; simp [update_key_entries]
  · intro k v rest ihv ihrest h vals
    by_cases hk : k = key
    · simp [occ_values_entries, hk] at h
    · simp only [occ_values_entries, hk, if_false, ite_false,
        List.append_eq_nil] at h
      simp [update_key_entries, hk, ihv h.1 vals, ihrest h.2 vals]
  · intro _ vals; simp [update_key_list]
  · intro v rest ihv ihrest h vals
    simp only [occ_values_list, List.append_eq_nil] at h
    simp [update_key_list, ihv h.1 vals, ihrest h.2 vals]

/-- C1 (amended): when key `K` occurs n>0 times, no occurrence is nested
inside the value of another occurrence, and every occurrence value has
the same runtime type as every supplied value, `update_all_json_key`
succeeds; with a single value it sets all n occurrences to that value,
and with n values it sets the i-th occurrence, in the deterministic
traversal order (map insertion order, then sequence order), to the i-th
value; nothing outside the occurrences changes.  The no-nesting proviso
is forced by `c1_counterexample`. -/
theorem c1_amended_positional_update (D : JSON) (key : String) (v0 : JSON)
    (vs : List JSON)
    (_hne : occ_values key D ≠ [])
    (hnonest : ∀ w ∈ occ_values key D, count_keys key w = 0)
    (htype : ∀ w ∈ occ_values key D, ∀ v ∈ v0 :: vs, pyType w = pyType v)
    (hlen : (v0 :: vs).length = 1 ∨
      (v0 :: vs).length = (occ_values key D).length) :
    ∃ D', update_all_json_key D key (v0 :: vs) =
        Except.ok (D', if (v0 :: vs).length = 1 then
          List.replicate (occ_values key D).length v0 else v0 :: vs) ∧
      occ_values key D' = (if (v0 :: vs).length = 1 then
        List.replicate (occ_values key D).length v0 else v0 :: vs) ∧
      erase_occ key D' = erase_occ key D := by
  obtain ⟨hrec, hcount⟩ := nonest_spec key D hnonest
  have hall : ∀ w ∈ occ_values_rec key D, isinstanceOf w v0 = true := by
    rw [hrec]
    intro w hw
    have := htype w hw v0 (by simp)
    simp [isinstanceOf, this]
  have hcack : count_and_check_keys D key v0 =
      Except.ok (count_keys key D) := by
    rcases cack_spec key v0 D with ⟨_, h2⟩ | ⟨⟨w, hw, hwf⟩, _⟩
    · exact h2
    · rw [hall w hw] at hwf; cases hwf
  set nv := if (v0 :: vs).length = 1 then
    List.replicate (occ_values key D).length v0 else v0 :: vs with hnv
  have hnvlen : nv.length = (occ_values key D).length := by
    rcases hlen with h1 | h1
    · simp [hnv, h1]
    · by_cases hc : (v0 :: vs).length = 1
      · simp [hnv, hc]
      · rw [hnv, if_neg hc, h1]
  obtain ⟨D', h1, h2, h3, _⟩ :=
    update_key_spec key D nv (le_of_eq hnvlen.symm)
  refine ⟨D', ?_, ?_, h3⟩
  · simp only [update_all_json_key, hcack, hcount, ← hnv]
    rw [if_pos hnvlen, h1]
  · rw [h2, ← hnvlen, List.take_length]

/-- C1 counterexample: in `c1doc` the key `K` occurs exactly twice and
every occurrence value is a dict, the same type as the two supplied dict
values, yet `update_all_json_key` does not set the second occurrence to
the second value: it rewrites the outer occurrence (destroying the nested
one, which the dry run counted), leaving a document with a single
occurrence whose value is `c1v1` — the claim's positional conclusion
fails. -/
theorem c1_counterexample :
    count_keys "K" c1doc = 2 ∧
    (occ_values_rec "K" c1doc).map pyType = [PyType.dictT, PyType.dictT] ∧
    pyType c1v1 = PyType.dictT ∧ pyType c1v2 = PyType.dictT ∧
    update_all_json_key c1doc "K" [c1v1, c1v2] =
      Except.ok (c1res, [c1v1, c1v2]) ∧
    occ_values_rec "K" c1res = [c1v1] ∧
    count_keys "K" c1res = 1 :=
  ⟨rfl, rfl, rfl, rfl, rfl, rfl, rfl⟩

/-- C1 witness: `c1wdoc` holds `K` at two non-nested places; the theorem
instantiated with values `7` and `9` assigns them in traversal order. -/
theorem c1_amended_witness :
    update_all_json_key c1wdoc "K" [JSON.num 7, JSON.num 9] =
      Except.ok (JSON.obj [("A", JSON.obj [("K", JSON.num 7)]),
        ("K", JSON.num 9)], [JSON.num 7, JSON.num 9]) ∧
    occ_values "K" (JSON.obj [("A", JSON.obj [("K", JSON.num 7)]),
      ("K", JSON.num 9)]) = [JSON.num 7, JSON.num 9] ∧
    erase_occ "K" (JSON.obj [("A", JSON.obj [("K", JSON.num 7)]),
      ("K", JSON.num 9)]) = erase_occ "K" c1wdoc := by
  obtain ⟨D', h1, h2, h3⟩ :=
    c1_amended_positional_update c1wdoc "K" (JSON.num 7) [JSON.num 9]
      (List.cons_ne_nil _ _) (by decide) (by decide) (Or.inr (by decide))
  rw [if_neg (by decide)] at h1 h2
  have h0 : update_all_json_key c1wdoc "K" [JSON.num 7, JSON.num 9] =
      Except.ok (JSON.obj [("A", JSON.obj [("K", JSON.num 7)]),
        ("K", JSON.num 9)], [JSON.num 7, JSON.num 9]) := rfl
  rw [h0] at h1
  obtain ⟨hD, -⟩ := (Prod.mk.injEq _ _ _ _).mp ((Except.ok.injEq _ _).mp h1)
  rw [← hD] at h2 h3
  exact ⟨h0, h2, h3⟩

/-- C6 (amended): if at any occurrence of the target key the current
value fails Python's `isinstance` check against `newValues[0]` — i.e.
its type is neither the type of `newValues[0]` nor `bool` where an `int`
is expected — `update_all_json_key` raises `TypeMismatchError`, and the
document is untouched because the dry run precedes every assignment.
The `isinstance` proviso is forced by `c6_counterexample`. -/
theorem c6_amended_type_mismatch (D : JSON) (key : String) (v0 : JSON)
    (vs : List JSON)
    (h : ∃ w ∈ occ_values_rec key D, isinstanceOf w v0 = false) :
    update_all_json_key D key (v0 :: vs) = Except.error PyErr.typeMismatch := by
  rcases cack_spec key v0 D with ⟨h1, _⟩ | ⟨_, h2⟩
  · rcases h with ⟨w, hw, hwf⟩
    rw [h1 w hw] at hwf
    cases hwf
  · simp [update_all_json_key, h2]

/-- C6 counterexample: the occurrence value `True` has type `bool`, the
new value `5` has the different type `int`, yet no `TypeMismatchError`
is raised and the document is modified — `isinstance(True, int)` holds
because `bool` is a subclass of `int`. -/
theorem c6_counterexample :
    pyType (JSON.bool true) ≠ pyType (JSON.num 5) ∧
    update_all_json_key (JSON.obj [("K", JSON.bool true)]) "K" [JSON.num 5] =
      Except.ok (JSON.obj [("K", JSON.num 5)], [JSON.num 5]) :=
  ⟨by decide, rfl⟩

/-- C6 witness: a string occurrence checked against an integer sample. -/
theorem c6_amended_type_mismatch_witness :
    update_all_json_key (JSON.obj [("T", JSON.str "x")]) "T" [JSON.num 1] =
      Except.error PyErr.typeMismatch :=
  c6_amended_type_mismatch (JSON.obj [("T", JSON.str "x")]) "T" (JSON.num 1) []
    ⟨JSON.str "x", List.mem_singleton.mpr rfl, by decide⟩

/-- C7 (amended): `update_all_json_key` raises `EmptyReplacementError` on
an empty replacement list, and raises `CountMismatchError` when the list
has more than one element and its length differs from the occurrence
count, provided every occurrence passes the dry-run type check — a type
mismatch is reported as `TypeMismatchError` first (`c7_counterexample`).
Either error is raised before any assignment. -/
theorem c7_amended_count_mismatch (D : JSON) (key : String) :
    update_all_json_key D key [] = Except.error PyErr.emptyReplacement ∧
    (∀ v0 v1 vs, (∀ w ∈ occ_values_rec key D, isinstanceOf w v0 = true) →
      (v0 :: v1 :: vs).length ≠ count_keys key D →
      update_all_json_key D key (v0 :: v1 :: vs) =
        Except.error PyErr.countMismatch) := by
  constructor
  · rfl
  · intro v0 v1 vs hall hne
    have hcack : count_and_check_keys D key v0 =
        Except.ok (count_keys key D) := by
      rcases cack_spec key v0 D with ⟨_, h2⟩ | ⟨⟨w, hw, hwf⟩, _⟩
      · exact h2
      · rw [hall w hw] at hwf; cases hwf
    have hone : ¬ (v0 :: v1 :: vs).length = 1 := by simp
    simp only [update_all_json_key, hcack, hone, if_false, ite_false]
    rw [if_neg hne]

/-- C7 counterexample: two replacement values against one occurrence, but
the occurrence's string value mismatches the integer sample, so the call
raises `TypeMismatchError`, not the `CountMismatchError` the claim
demands. -/
theorem c7_counterexample :
    count_keys "J" (JSON.obj [("J", JSON.str "s")]) = 1 ∧
    update_all_json_key (JSON.obj [("J", JSON.str "s")]) "J"
      [JSON.num 1, JSON.num 2] = Except.error PyErr.typeMismatch ∧
    PyErr.typeMismatch ≠ PyErr.countMismatch :=
  ⟨rfl, rfl, by decide⟩

/-- C7 witness: three integer values for a document with one integer
occurrence. -/
theorem c7_amended_count_mismatch_witness :
    update_all_json_key (JSON.obj [("C", JSON.num 0)]) "C"
      [JSON.num 1, JSON.num 2, JSON.num 3] =
      Except.error PyErr.countMismatch :=
  (c7_amended_count_mismatch (JSON.obj [("C", JSON.num 0)]) "C").2
    (JSON.num 1) (JSON.num 2) [JSON.num 3] (by decide) (by decide)

/-- C10 (confirmed): a single-element replacement list is mutated in place
by `new_values *= occurrences`: after a successful call the caller's list
holds one copy of the value per occurrence of the key, and when the key
does not occur at all the list becomes empty and the call succeeds as a
no-op, returning the document unchanged. -/
theorem c10_inplace_broadcast (D : JSON) (key : String) (v : JSON) :
    (∀ D' l, update_all_json_key D key [v] = Except.ok (D', l) →
      l = List.replicate (count_keys key D) v) ∧
    (count_keys key D = 0 →
      update_all_json_key D key [v] = Except.ok (D, [])) := by
  constructor
  · intro D' l h
    cases hc : count_and_check_keys D key v with
    | error e => simp [update_all_json_key, hc] at h
    | ok n =>
      have hn := cack_ok_count key v D n hc
      subst hn
      simp only [update_all_json_key, hc, List.length_singleton,
        if_true, List.length_replicate, eq_self_iff_true, ite_true] at h
      cases hu : update_key key D (List.replicate (count_keys key D) v) with
      | none => rw [hu] at h; cases h
      | some p =>
        rw [hu] at h
        exact ((Prod.mk.injEq _ _ _ _).mp
          ((Except.ok.injEq _ _).mp h)).2.symm
  · intro h0
    have hocc : occ_values key D = [] := by
      have hle := occ_length_le_count key D
      rw [h0, Nat.le_zero] at hle
      exact List.eq_nil_of_length_eq_zero hle
    have hcack : count_and_check_keys D key v =
        Except.ok (count_keys key D) := by
      rcases cack_spec key v D with ⟨_, h2⟩ | ⟨⟨w, hw, _⟩, _⟩
      · exact h2
      · rw [count0_rec_nil key D h0] at hw
        cases hw
    simp [update_all_json_key, hcack, h0, update_key_nil_id key D hocc]

/-- C10 witness: the key is absent, the call succeeds as a no-op and the
caller's list is left empty. -/
theorem c10_inplace_broadcast_witness :
    update_all_json_key (JSON.obj [("B", JSON.num 3)]) "K" [JSON.num 5] =
      Except.ok (JSON.obj [("B", JSON.num 3)], []) :=
  (c10_inplace_broadcast (JSON.obj [("B", JSON.num 3)]) "K" (JSON.num 5)).2 rfl

theorem collect_sub (target : String) (f : JSON → Except PyErr (List JSON)) :
    ∀ D l, collect_by_key target f D = Except.ok l →
      ∀ v ∈ occ_values target D, ∃ lv, f v = Except.ok lv ∧ ∀ x ∈ lv, x ∈ l := by
  refine json_ind
    (fun D => ∀ l, collect_by_key target f D = Except.ok l →
      ∀ v ∈ occ_values target D, ∃ lv, f v = Except.ok lv ∧ ∀ x ∈ lv, x ∈ l)
    (fun es => ∀ l, collect_entries target f es = Except.ok l →
      ∀ v ∈ occ_values_entries target es,
        ∃ lv, f v = Except.ok lv ∧ ∀ x ∈ lv, x ∈ l)
    (fun xs => ∀ l, collect_list target f xs = Except.ok l →
      ∀ v ∈ occ_values_list target xs,
        ∃ lv, f v = Except.ok lv ∧ ∀ x ∈ lv, x ∈ l)
    ?_ ?_ ?_ ?_ ?_ ?_ ?_ ?_ ?_ ?_
  · intro s l _ v hv; simp [occ_values] at hv
  · intro i l _ v hv; simp [occ_values] at hv
  · intro b l _ v hv; simp [occ_values] at hv
  · intro l _ v hv; simp [occ_values] at hv
  · intro es ih l h v hv
    simp only [collect_by_key] at h
    exact ih l h v (by simpa [occ_values] using hv)
  · intro xs ih l h v hv
    simp only [collect_by_key] at h
    exact ih l h v (by simpa [occ_values] using hv)
  · intro l _ v hv; simp [occ_values_entries] at hv
  · intro k v rest ihv ihrest l h w hw
    by_cases hk : k = target
    · simp only [collect_entries, hk, if_true, eq_self_iff_true] at h
      cases hf : f v with
      | error e => rw [hf] at h; cases h
      | ok l1 =>
        rw [hf] at h
        cases hr : collect_entries target f rest with
        | error e => rw [hr] at h; cases h
        | ok l2 =>
          rw [hr] at h
          obtain rfl : l1 ++ l2 = l := (Except.ok.injEq _ _).mp h
          simp only [occ_values_entries, hk, if_true, eq_self_iff_true,
            List.mem_cons] at hw
          rcases hw with rfl | hw
          · exact ⟨l1, hf, fun x hx => by simp [hx]⟩
          · obtain ⟨lv, h1, h2⟩ := ihrest l2 hr w hw
            exact ⟨lv, h1, fun x hx => by simp [h2 x hx]⟩
    · simp only [collect_entries, hk, if_false, ite_false] at h
      cases hf : collect_by_key target f v with
      | error e => rw [hf] at h; cases h
      | ok l1 =>
        rw [hf] at h
        cases hr : collect_entries target f rest with
        | error e => rw [hr] at h; cases h
        | ok l2 =>
          rw [hr] at h
          obtain rfl : l1 ++ l2 = l := (Except.ok.injEq _ _).mp h
          simp only [occ_values_entries, hk, if_false, ite_false,
            List.mem_append] at hw
          rcases hw with hw | hw
          · obtain ⟨lv, h1, h2⟩ := ihv l1 hf w hw
            exact ⟨lv, h1, fun x hx => by simp [h2 x hx]⟩
          · obtain ⟨lv, h1, h2⟩ := ihrest l2 hr w hw
            exact ⟨lv, h1, fun x hx => by simp [h2 x hx]⟩
  · intro l _ v hv; simp [occ_values_list] at hv
  · intro v rest ihv ihrest l h w hw
    simp only [collect_list] at h
    cases hf : collect_by_key target f v with
    | error e => rw [hf] at h; cases h
    | ok l1 =>
      rw [hf] at h
      cases hr : collect_list target f rest with
      | error e => rw [hr] at h; cases h
      | ok l2 =>
        rw [hr] at h
        obtain rfl : l1 ++ l2 = l := (Except.ok.injEq _ _).mp h
        simp only [occ_values_list, List.mem_append] at hw
        rcases hw with hw | hw
        · obtain ⟨lv, h1, h2⟩ := ihv l1 hf w hw
          exact ⟨lv, h1, fun x hx => by simp [h2 x hx]⟩
        · obtain ⟨lv, h1, h2⟩ := ihrest l2 hr w hw
          exact ⟨lv, h1, fun x hx => by simp [h2 x hx]⟩

theorem walker_id (target : String) (f : JSON → Except PyErr JSON) :
    ∀ D, (∀ v ∈ occ_values target D, f v = Except.ok v) →
      update_all_json_key_func target f D = Except.ok D := by
  refine json_ind
    (fun D => (∀ v ∈ occ_values target D, f v = Except.ok v) →
      update_all_json_key_func target f D = Except.ok D)
    (fun es => (∀ v ∈ occ_values_entries target es, f v = Except.ok v) →
      uajkf_entries target f es = Except.ok es)
    (fun xs => (∀ v ∈ occ_values_list target xs, f v = Except.ok v) →
      uajkf_list target f xs = Except.ok xs)
    ?_ ?_ ?_ ?_ ?_ ?_ ?_ ?_ ?_ ?_
  · intro s _; simp [update_all_json_key_func]
  · intro i _; simp [update_all_json_key_func]
  · intro b _; simp [update_all_json_key_func]
  · intro _; simp [update_all_json_key_func]
  · intro es ih h
    simp only [occ_values] at h
    simp [update_all_json_key_func, ih h]
  · intro xs ih h
    simp only [occ_values] at h
    simp [update_all_json_key_func, ih h]
  · intro _; simp [uajkf_entries]
  · intro k v rest ihv ihrest h
    by_cases hk : k = target
    · simp only [occ_values_entries, hk, if_true, eq_self_iff_true] at h
      have hv := h v (by simp)
      have hrest := ihrest fun w hw => h w (by simp [hw])
      simp [uajkf_entries, hk, hv, hrest]
    · simp only [occ_values_entries, hk, if_false, ite_false] at h
      have hv := ihv fun w hw => h w (by simp [hw])
      have hrest := ihrest fun w hw => h w (by simp [hw])
      simp [uajkf_entries, hk, hv, hrest]
  · intro _; simp [uajkf_list]
  · intro v rest ihv ihrest h
    simp only [occ_values_list] at h
    have hv := ihv fun w hw => h w (by simp [hw])
    have hrest := ihrest fun w hw => h w (by simp [hw])
    simp [uajkf_list, hv, hrest]

theorem update_node_property_nomatch (doc : JSON) (nid : JSON) (p : String)
    (nv : JSON) (vals : List JSON)
    (hcoll : collect_node_values doc = Except.ok vals)
    (hnodes : ∀ nd ∈ vals.filterMap asDict,
      (lookupVal "Id" nd).isSome ∧ matchesId nd nid = false) :
    update_node_property doc nid p nv = Except.ok doc := by
  have hall : (vals.filterMap asDict).all
      (fun nd => (lookupVal "Id" nd).isSome) = true :=
    List.all_eq_true.mpr fun nd h => by simp [(hnodes nd h).1]
  simp only [update_node_property, hcoll, hall, if_true]
  refine walker_id "Nodes" _ doc fun v hv => ?_
  obtain ⟨lv, hfv, hsub⟩ :=
    collect_sub "Nodes" _ doc vals hcoll v hv
  cases v with
  | obj es =>
    obtain rfl : es.map Prod.snd = lv := by
      simpa using (Except.ok.injEq _ _).mp hfv
    have hmap : es.map (fun e =>
        match e.2 with
        | JSON.obj nes =>
          if matchesId nes nid then (e.1, JSON.obj (dictSet nes p nv)) else e
        | _ => e) = es.map id := by
      refine List.map_congr_left fun e he => ?_
      cases he2 : e.2 with
      | obj nes =>
        have hmem : nes ∈ vals.filterMap asDict := by
          refine List.mem_filterMap.mpr ⟨e.2, ?_, by simp [he2, asDict]⟩
          exact hsub e.2 (List.mem_map.mpr ⟨e, he, rfl⟩)
        simp [he2, (hnodes nes hmem).2]
      | str s => simp [he2]
      | num i => simp [he2]
      | bool bb => simp [he2]
      | null => simp [he2]
      | arr xs => simp [he2]
    simp [hmap]
  | str s => cases hfv
  | num i => cases hfv
  | bool bb => cases hfv
  | null => cases hfv
  | arr xs => cases hfv

/-- C8 (amended): during binding propagation, a binding whose `Variable`
is absent from the variable table, or whose `Node` identifier matches no
node map — provided every node map carries an `Id` key, since a node map
without one makes `node['Id']` raise `KeyError` and abort the run
(`c8_counterexample`) — is skipped without aborting: the remaining
bindings are processed exactly as if the skipped binding were not
there. -/
theorem c8_amended_skip (doc : JSON) (vars : List (String × JSON)) (b : JSON)
    (rest : List JSON)
    (h : (∃ w, pyGet b "Variable" = Except.ok w ∧
        pyVarsLookup vars w = Except.ok none) ∨
      (∃ s value nid p vals,
        pyGet b "Variable" = Except.ok (JSON.str s) ∧
        lookupVal s vars = some value ∧
        pyGet b "Node" = Except.ok nid ∧
        pyGet b "Property" = Except.ok (JSON.str p) ∧
        collect_node_values doc = Except.ok vals ∧
        ∀ nd ∈ vals.filterMap asDict,
          (lookupVal "Id" nd).isSome ∧ matchesId nd nid = false)) :
    process_bindings doc (b :: rest) vars = process_bindings doc rest vars := by
  rcases h with ⟨w, h1, h2⟩ | ⟨s, value, nid, p, vals, h1, h2, h3, h4, h5, h6⟩
  · simp [process_bindings, h1, h2]
  · have hv : pyVarsLookup vars (JSON.str s) = Except.ok (some value) := by
      simp [pyVarsLookup, h2]
    have hu := update_node_property_nomatch doc nid p value vals h5 h6
    simp [process_bindings, h1, hv, h3, h4, hu]

/-- C8 counterexample: the binding in `c8doc` references node id 7, no
node map matches it (the only node map has no `Id` at all), and instead
of being skipped the run aborts with `KeyError('Id')`. -/
theorem c8_counterexample :
    configure_terrain_file c8doc "/out" [("t", JSON.num 1)] =
      Except.error (PyErr.keyError "Id") := rfl

/-- C8 witness: the first binding references id 99 which no node carries;
it is skipped and the remaining binding list is processed unchanged. -/
theorem c8_amended_skip_witness :
    process_bindings c8wdoc [c8wbinding, c8wbinding2] [("s", JSON.num 5)] =
      process_bindings c8wdoc [c8wbinding2] [("s", JSON.num 5)] :=
  c8_amended_skip c8wdoc [("s", JSON.num 5)] c8wbinding [c8wbinding2]
    (Or.inr ⟨"s", JSON.num 5, JSON.num 99, "Seed",
      [JSON.obj [("Id", JSON.num 1), ("Seed", JSON.num 0)]],
      rfl, rfl, rfl, rfl, rfl, by decide⟩)

theorem shape_entries_map (es : List (String × JSON)) :
    shape_entries es = es.map fun e => (e.1, shape e.2) := by
  induction es with
  | nil => simp [shape_entries]
  | cons e rest ih =>
    cases e
    simp [shape_entries, ih]

theorem shape_list_map (xs : List JSON) : shape_list xs = xs.map shape := by
  induction xs with
  | nil => simp [shape_list]
  | cons v rest ih => simp [shape_list, ih]

theorem lookup_mem (k : String) :
    ∀ (l : List (String × JSON)) (v : JSON),
      lookupVal k l = some v → (k, v) ∈ l := by
  intro l
  induction l with
  | nil => intro v h; cases h
  | cons e rest ih =>
    intro v h
    cases e with
    | mk k2 w =>
      by_cases hk : k2 = k
      · rw [lookupVal, if_pos hk] at h
        obtain rfl : w = v := Option.some.injEq _ _ |>.mp h
        simp [hk]
      · rw [lookupVal, if_neg hk] at h
        simp [ih v h]

theorem lookupShape_shape (p : String) :
    ∀ (nes : List (String × JSON)),
      lookupShape p (shape_entries nes) = (lookupVal p nes).map shape := by
  intro nes
  induction nes with
  | nil => simp [shape_entries, lookupShape, lookupVal]
  | cons e rest ih =>
    cases e with
    | mk k w =>
      by_cases hk : k = p
      · simp [shape_entries, lookupShape, lookupVal, hk]
      · simp [shape_entries, lookupShape, lookupVal, hk, ih]

theorem occ_shapes_shape (key : String) :
    ∀ D, (occ_values key D).map shape = occ_shapes key (shape D) := by
  refine json_ind _
    (fun es => (occ_values_entries key es).map shape =
      occ_shapes_entries key (shape_entries es))
    (fun xs => (occ_values_list key xs).map shape =
      occ_shapes_list key (shape_list xs))
    ?_ ?_ ?_ ?_ ?_ ?_ ?_ ?_ ?_ ?_
  · intro s; simp [occ_values, shape, occ_shapes]
  · intro i; simp [occ_values, shape, occ_shapes]
  · intro b; simp [occ_values, shape, occ_shapes]
  · simp [occ_values, shape, occ_shapes]
  · intro es ih; simp [occ_values, shape, occ_shapes, ih]
  · intro xs ih; simp [occ_values, shape, occ_shapes, ih]
  · simp [occ_values_entries, shape_entries, occ_shapes_entries]
  · intro k v rest ihv ihrest
    by_cases hk : k = key
    · simp [occ_values_entries, shape_entries, occ_shapes_entries, hk, ihrest]
    · simp [occ_values_entries, shape_entries, occ_shapes_entries, hk,
        ihv, ihrest]
  · simp [occ_values_list, shape_list, occ_shapes_list]
  · intro v rest ihv ihrest
    simp [occ_values_list, shape_list, occ_shapes_list, ihv, ihrest]

theorem dictSet_shape (nes : List (String × JSON)) (p : String) (nv : JSON)
    (hsome : (lookupVal p nes).isSome)
    (hleaf : ∀ e ∈ nes, e.1 = p → shape e.2 = Shape.leaf)
    (hnv : shape nv = Shape.leaf) :
    shape_entries (dictSet nes p nv) = shape_entries nes := by
  simp only [dictSet, hsome, if_true]
  rw [shape_entries_map, shape_entries_map, List.map_map]
  refine List.map_congr_left fun e he => ?_
  by_cases hp : e.1 = p
  · simp [Function.comp, hp, hnv, (hleaf e he hp).symm]
  · simp [Function.comp, hp]

theorem uajkf_shape (target : String) (f : JSON → Except PyErr JSON) :
    ∀ D D', update_all_json_key_func target f D = Except.ok D' →
      (∀ v ∈ occ_values target D, ∀ w, f v = Except.ok w → shape w = shape v) →
      shape D' = shape D := by
  refine json_ind
    (fun D => ∀ D', update_all_json_key_func target f D = Except.ok D' →
      (∀ v ∈ occ_values target D, ∀ w, f v = Except.ok w → shape w = shape v) →
      shape D' = shape D)
    (fun es => ∀ es', uajkf_entries target f es = Except.ok es' →
      (∀ v ∈ occ_values_entries target es, ∀ w, f v = Except.ok w →
        shape w = shape v) →
      shape_entries es' = shape_entries es)
    (fun xs => ∀ xs', uajkf_list target f xs = Except.ok xs' →
      (∀ v ∈ occ_values_list target xs, ∀ w, f v = Except.ok w →
        shape w = shape v) →
      shape_list xs' = shape_list xs)
    ?_ ?_ ?_ ?_ ?_ ?_ ?_ ?_ ?_ ?_
  · intro s D' h _
    obtain rfl : JSON.str s = D' := by
      simpa [update_all_json_key_func] using h
    rfl
  · intro i D' h _
    obtain rfl : JSON.num i = D' := by
      simpa [update_all_json_key_func] using h
    rfl
  · intro b D' h _
    obtain rfl : JSON.bool b = D' := by
      simpa [update_all_json_key_func] using h
    rfl
  · intro D' h _
    obtain rfl : JSON.null = D' := by
      simpa [update_all_json_key_func] using h
    rfl
  · intro es ih D' h hf
    simp only [update_all_json_key_func] at h
    cases he : uajkf_entries target f es with
    | error e => rw [he] at h; cases h
    | ok es' =>
      rw [he] at h
      obtain rfl : JSON.obj es' = D' := (Except.ok.injEq _ _).mp h
      simp only [shape]
      rw [ih es' he (by simpa [occ_values] using hf)]
  · intro xs ih D' h hf
    simp only [update_all_json_key_func] at h
    cases he : uajkf_list target f xs with
    | error e => rw [he] at h; cases h
    | ok xs' =>
      rw [he] at h
      obtain rfl : JSON.arr xs' = D' := (Except.ok.injEq _ _).mp h
      simp only [shape]
      rw [ih xs' he (by simpa [occ_values] using hf)]
  · intro es' h _
    obtain rfl : ([] : List (String × JSON)) = es' := by
      simpa [uajkf_entries] using h
    rfl
  · intro k v rest ihv ihrest es' h hf
    by_cases hk : k = target
    · subst hk
      simp only [uajkf_entries, if_true, eq_self_iff_true] at h
      cases hfv : f v with
      | error e => rw [hfv] at h; cases h
      | ok v2 =>
        rw [hfv] at h
        cases hr : uajkf_entries k f rest with
        | error e => rw [hr] at h; cases h
        | ok es2 =>
          rw [hr] at h
          obtain rfl : (k, v2) :: es2 = es' := (Except.ok.injEq _ _).mp h
          simp only [shape_entries]
          rw [hf v (by simp [occ_values_entries]) v2 hfv]
          rw [ihrest es2 hr (fun u hu w hw =>
            hf u (by simp [occ_values_entries, hu]) w hw)]
    · simp only [uajkf_entries, hk, if_false, ite_false] at h
      cases hfv : update_all_json_key_func target f v with
      | error e => rw [hfv] at h; cases h
      | ok v2 =>
        rw [hfv] at h
        cases hr : uajkf_entries target f rest with
        | error e => rw [hr] at h; cases h
        | ok es2 =>
          rw [hr] at h
          obtain rfl : (k, v2) :: es2 = es' := (Except.ok.injEq _ _).mp h
          simp only [shape_entries]
          rw [ihv v2 hfv (fun u hu w hw =>
            hf u (by simp [occ_values_entries, hk, hu]) w hw)]
          rw [ihrest es2 hr (fun u hu w hw =>
            hf u (by simp [occ_values_entries, hk, hu]) w hw)]
  · intro xs' h _
    obtain rfl : ([] : List JSON) = xs' := by
      simpa [uajkf_list] using h
    rfl
  · intro v rest ihv ihrest xs' h hf
    simp only [uajkf_list] at h
    cases hfv : update_all_json_key_func target f v with
    | error e => rw [hfv] at h; cases h
    | ok v2 =>
      rw [hfv] at h
      cases hr : uajkf_list target f rest with
      | error e => rw [hr] at h; cases h
      | ok xs2 =>
        rw [hr] at h
        obtain rfl : v2 :: xs2 = xs' := (Except.ok.injEq _ _).mp h
        simp only [shape_list]
        rw [ihv v2 hfv (fun u hu w hw =>
          hf u (by simp [occ_values_list, hu]) w hw)]
        rw [ihrest xs2 hr (fun u hu w hw =>
          hf u (by simp [occ_values_list, hu]) w hw)]

theorem shape_leaf_of_strT (w : JSON) (h : pyType w = PyType.strT) :
    shape w = Shape.leaf := by
  cases w <;> simp_all [pyType, shape]

theorem strT_of_isinst (w : JSON) (s : String)
    (h : isinstanceOf w (JSON.str s) = true) : pyType w = PyType.strT := by
  simpa [isinstanceOf, pyType] using h

theorem update_all_single_str_shape (D : JSON) (key : String) (s : String)
    (D' : JSON) (l : List JSON)
    (h : update_all_json_key D key [JSON.str s] = Except.ok (D', l)) :
    shape D' = shape D := by
  cases hc : count_and_check_keys D key (JSON.str s) with
  | error e => simp [update_all_json_key, hc] at h
  | ok n =>
    obtain rfl := cack_ok_count key (JSON.str s) D n hc
    have hocc_le : (occ_values key D).length ≤
        (List.replicate (count_keys key D) (JSON.str s)).length := by
      simp [occ_length_le_count key D]
    obtain ⟨D'', heq, _, _, hshape⟩ := update_key_spec key D _ hocc_le
    simp only [update_all_json_key, hc, List.length_singleton, if_true,
      List.length_replicate, eq_self_iff_true, ite_true] at h
    rw [heq] at h
    obtain ⟨rfl, rfl⟩ : D'' = D' ∧ List.replicate (count_keys key D)
        (JSON.str s) = l := by
      simpa using (Except.ok.injEq _ _).mp h
    apply hshape
    · intro v hv
      rw [List.eq_of_mem_replicate hv]
      rfl
    · intro w hw
      have hins := cack_ok_isinst key (JSON.str s) D _ hc w
        (occ_sub_rec key D w hw)
      exact shape_leaf_of_strT w (strT_of_isinst w s hins)

theorem apply_variables_shape (vars : List (String × JSON)) (D D' : JSON)
    (h : apply_variables vars D = Except.ok D')
    (hvs : ∀ sh ∈ occ_shapes "Variables" (shape D), varShapeOk vars sh) :
    shape D' = shape D := by
  unfold apply_variables at h
  refine uajkf_shape "Variables" _ D D' h ?_
  intro v hv w hw
  cases v with
  | obj ves =>
    obtain rfl : JSON.obj (update_variable_value vars ves) = w := by
      simpa using hw
    have hsh : Shape.node (shape_entries ves) ∈
        occ_shapes "Variables" (shape D) := by
      rw [← occ_shapes_shape]
      exact List.mem_map.mpr ⟨_, hv, by simp [shape]⟩
    have hok := hvs _ hsh
    simp only [shape]
    rw [shape_entries_map, shape_entries_map, update_variable_value,
      List.map_map]
    refine congrArg Shape.node ?_
    refine List.map_congr_left fun e he => ?_
    cases hl : lookupVal e.1 vars with
    | none => simp [Function.comp, hl]
    | some x =>
      have hleaf : shape e.2 = Shape.leaf := by
        have := hok (shape_entries ves) rfl (e.1, shape e.2)
          (by rw [shape_entries_map]; exact List.mem_map.mpr ⟨e, he, rfl⟩)
          (by simp [hl])
        simpa using this
      simp [Function.comp, hl, hleaf, shape]
  | str s => simp at hw
  | num i => simp at hw
  | bool b => simp at hw
  | null => simp at hw
  | arr xs => simp at hw

theorem update_node_property_shape (doc nid : JSON) (p : String) (nv : JSON)
    (doc2 : JSON) (h : update_node_property doc nid p nv = Except.ok doc2)
    (hnv : shape nv = Shape.leaf)
    (hok : nodesPropOk p (shape doc)) :
    shape doc2 = shape doc := by
  cases hc : collect_node_values doc with
  | error e => simp [update_node_property, hc] at h
  | ok vals =>
    simp only [update_node_property, hc] at h
    by_cases hall : (vals.filterMap asDict).all
        (fun nd => (lookupVal "Id" nd).isSome) = true
    · rw [if_pos hall] at h
      refine uajkf_shape "Nodes" _ doc doc2 h ?_
      intro v hv w hw
      cases v with
      | obj es =>
        obtain rfl : JSON.obj (es.map fun e =>
            match e.2 with
            | JSON.obj nes =>
              if matchesId nes nid then (e.1, JSON.obj (dictSet nes p nv))
              else e
            | _ => e) = w := by simpa using hw
        have hsh : Shape.node (shape_entries es) ∈
            occ_shapes "Nodes" (shape doc) := by
          rw [← occ_shapes_shape]
          exact List.mem_map.mpr ⟨_, hv, by simp [shape]⟩
        simp only [shape]
        rw [shape_entries_map, shape_entries_map, List.map_map]
        refine congrArg Shape.node ?_
        refine List.map_congr_left fun e he => ?_
        cases he2 : e.2 with
        | obj nes =>
          by_cases hm : matchesId nes nid = true
          · have hprop := hok _ hsh (shape_entries es) rfl (e.1, shape e.2)
              (by rw [shape_entries_map]; exact List.mem_map.mpr ⟨e, he, rfl⟩)
              (shape_entries nes) (by simp [he2, shape])
            have hsome : (lookupVal p nes).isSome := by
              have := hprop.1
              rw [lookupShape_shape] at this
              simpa using this
            have hleaf : ∀ e2 ∈ nes, e2.1 = p → shape e2.2 = Shape.leaf := by
              intro e2 he2m hkey
              have := hprop.2 (e2.1, shape e2.2)
                (by rw [shape_entries_map]
                    exact List.mem_map.mpr ⟨e2, he2m, rfl⟩) hkey
              simpa using this
            have hds := dictSet_shape nes p nv hsome hleaf hnv
            simp [Function.comp, he2, hm, shape, hds]
          · simp [Function.comp, he2, hm]
        | str s => simp [Function.comp, he2]
        | num i => simp [Function.comp, he2]
        | bool b => simp [Function.comp, he2]
        | null => simp [Function.comp, he2]
        | arr xs => simp [Function.comp, he2]
      | str s =>
        obtain rfl : JSON.str s = w := by simpa using hw
        rfl
      | num i =>
        obtain rfl : JSON.num i = w := by simpa using hw
        rfl
      | bool b =>
        obtain rfl : JSON.bool b = w := by simpa using hw
        rfl
      | null =>
        obtain rfl : JSON.null = w := by simpa using hw
        rfl
      | arr xs =>
        obtain rfl : JSON.arr xs = w := by simpa using hw
        rfl
    · rw [if_neg hall] at h
      cases h

theorem process_bindings_shape (vars : List (String × JSON))
    (hvars : ∀ e ∈ vars, shape e.2 = Shape.leaf) :
    ∀ (bs : List JSON) (doc doc2 : JSON),
      process_bindings doc bs vars = Except.ok doc2 →
      (∀ b ∈ bs, ∀ p, pyGet b "Property" = Except.ok (JSON.str p) →
        nodesPropOk p (shape doc)) →
      shape doc2 = shape doc := by
  intro bs
  induction bs with
  | nil =>
    intro doc doc2 h _
    obtain rfl : doc = doc2 := by simpa [process_bindings] using h
    rfl
  | cons b rest ih =>
    intro doc doc2 h hp
    simp only [process_bindings] at h
    cases h1 : pyGet b "Variable" with
    | error e => simp only [h1] at h; cases h
    | ok w =>
      simp only [h1] at h
      cases h2 : pyVarsLookup vars w with
      | error e => simp only [h2] at h; cases h
      | ok o =>
        simp only [h2] at h
        cases o with
        | none => exact ih doc doc2 h fun b2 hb2 => hp b2 (by simp [hb2])
        | some value =>
          have hvleaf : shape value = Shape.leaf := by
            cases w with
            | str s =>
              have hl : lookupVal s vars = some value := by
                simpa [pyVarsLookup] using h2
              exact hvars (s, value) (lookup_mem s vars value hl)
            | obj es => simp [pyVarsLookup] at h2
            | arr xs => simp [pyVarsLookup] at h2
            | num i => simp [pyVarsLookup] at h2
            | bool bb => simp [pyVarsLookup] at h2
            | null => simp [pyVarsLookup] at h2
          cases h3 : pyGet b "Node" with
          | error e => simp only [h3] at h; cases h
          | ok nid =>
            simp only [h3] at h
            cases h4 : pyGet b "Property" with
            | error e => simp only [h4] at h; cases h
            | ok pv =>
              simp only [h4] at h
              cases pv with
              | str p =>
                cases h5 : update_node_property doc nid p value with
                | error e => simp only [h5] at h; cases h
                | ok docm =>
                  simp only [h5] at h
                  have hshape : shape docm = shape doc :=
                    update_node_property_shape doc nid p value docm h5 hvleaf
                      (hp b (by simp) p h4)
                  have hih := ih docm doc2 h fun b2 hb2 p2 hp2 => by
                    rw [hshape]
                    exact hp b2 (by simp [hb2]) p2 hp2
                  rw [hih, hshape]
              | num i => simp at h
              | bool bb => simp at h
              | null => simp at h
              | obj es => simp at h
              | arr xs => simp at h

/-- C5 (amended): a full patch pass (`configure_terrain_file`) never
alters the structural shape of the document — no key added or removed at
any depth, only values under existing keys replaced — provided the
evaluated variable values are scalars, every `Variables` entry matching a
variable holds a scalar, and every node map under a `Nodes` collection
already carries each `Property` named by a collected binding, with a
scalar value.  Without the property proviso the pass adds the missing
key (`c5_counterexample`). -/
theorem c5_amended_shape_invariant (D : JSON) (out : String)
    (vars : List (String × JSON)) (D' : JSON)
    (hok : configure_terrain_file D out vars = Except.ok D')
    (hvars : ∀ e ∈ vars, shape e.2 = Shape.leaf)
    (hvs : ∀ sh ∈ occ_shapes "Variables" (shape D), varShapeOk vars sh)
    (hprops : ∀ t3 bs, configure_stage1 D out vars = Except.ok t3 →
      collect_bindings t3 = Except.ok bs →
      ∀ b ∈ bs, ∀ p, pyGet b "Property" = Except.ok (JSON.str p) →
        nodesPropOk p (shape D)) :
    shape D' = shape D := by
  cases hs1 : configure_stage1 D out vars with
  | error e => simp [configure_terrain_file, hs1] at hok
  | ok t3 =>
    simp only [configure_terrain_file, hs1] at hok
    cases hcb : collect_bindings t3 with
    | error e => simp only [hcb] at hok; cases hok
    | ok bs =>
      simp only [hcb] at hok
      have hsh3 : shape t3 = shape D := by
        cases hu1 : update_all_json_key D "PostBuildScript"
            [JSON.str "@echo off"] with
        | error e => simp [configure_stage1, hu1] at hs1
        | ok p1 =>
          cases p1 with
          | mk t1 l1 =>
            cases hu2 : update_all_json_key t1 "Destination"
                [JSON.str out] with
            | error e => simp only [configure_stage1, hu1, hu2] at hs1; cases hs1
            | ok p2 =>
              cases p2 with
              | mk t2 l2 =>
                simp only [configure_stage1, hu1, hu2] at hs1
                have e1 := update_all_single_str_shape D "PostBuildScript"
                  "@echo off" t1 l1 hu1
                have e2 := update_all_single_str_shape t1 "Destination"
                  out t2 l2 hu2
                have e3 := apply_variables_shape vars t2 t3 hs1
                  (by rw [e2, e1]; exact hvs)
                rw [e3, e2, e1]
      have hps := process_bindings_shape vars hvars bs t3 D' hok
        fun b hb p hp => by
          rw [hsh3]
          exact hprops t3 bs hs1 hcb b hb p hp
      rw [hps, hsh3]

/-- C5 counterexample: on `c5doc` the binding's `Seed` property is absent
from the matched node, the pass succeeds and adds the key, so the
structural shape of the document changes. -/
theorem c5_counterexample :
    configure_terrain_file c5doc "/out" [("s", JSON.num 42)] =
      Except.ok c5res ∧
    shape c5res ≠ shape c5doc := by
  constructor
  · rfl
  · simp [c5doc, c5res, shape, shape_entries, shape_list]

/-- C5 witness: on `c5wdoc`, whose bound property and matched variables
entries all exist with scalar values, the patched document has the same
shape as the input. -/
theorem c5_amended_shape_invariant_witness :
    shape c5wres = shape c5wdoc := by
  refine c5_amended_shape_invariant c5wdoc "/out" [("s", JSON.num 9)]
    c5wres rfl ?_ ?_ ?_
  · intro e he
    rw [List.mem_singleton] at he
    subst he
    rfl
  · intro sh hsh
    have hocc : occ_shapes "Variables" (shape c5wdoc) =
        [Shape.node [("s", Shape.leaf)]] := rfl
    rw [hocc, List.mem_singleton] at hsh
    subst hsh
    intro es hes
    injection hes with hes2
    subst hes2
    intro e he
    rw [List.mem_singleton] at he
    subst he
    intro _
    rfl
  · intro t3 bs ht3 hbs
    have ht3v : (JSON.obj [
        ("PostBuildScript", JSON.str "@echo off"),
        ("Destination", JSON.str "/out"),
        ("Nodes", JSON.obj [("n",
          JSON.obj [("Id", JSON.num 1), ("Seed", JSON.num 0)])]),
        ("Bindings", JSON.obj [("$values", JSON.arr [JSON.obj
          [("Node", JSON.num 1), ("Property", JSON.str "Seed"),
           ("Variable", JSON.str "s")]])]),
        ("Variables", JSON.obj [("s", JSON.str "9")])]) = t3 :=
      (Except.ok.injEq _ _).mp ht3
    subst ht3v
    have hbsv : ([JSON.obj [("Node", JSON.num 1),
        ("Property", JSON.str "Seed"), ("Variable", JSON.str "s")]]) = bs :=
      (Except.ok.injEq _ _).mp hbs
    subst hbsv
    intro b hb p hp
    rw [List.mem_singleton] at hb
    subst hb
    have hpv : JSON.str "Seed" = JSON.str p := (Except.ok.injEq _ _).mp hp
    injection hpv with hpv2
    subst hpv2
    intro t ht
    have hocc : occ_shapes "Nodes" (shape c5wdoc) =
        [Shape.node [("n", Shape.node
          [("Id", Shape.leaf), ("Seed", Shape.leaf)])]] := rfl
    rw [hocc, List.mem_singleton] at ht
    subst ht
    intro es hes
    injection hes with hes2
    subst hes2
    intro e he
    rw [List.mem_singleton] at he
    subst he
    intro nes hnes
    injection hnes with hnes2
    subst hnes2
    constructor
    · rfl
    · intro e2 he2 hkey
      rw [List.mem_cons] at he2
      rcases he2 with he2 | he2
      · subst he2
        exact absurd hkey (by decide)
      · rw [List.mem_singleton] at he2
        subst he2
        rfl

theorem splitEq_no_eq (xs : List Char) (h : '=' ∉ xs) : splitEq xs = [xs] := by
  induction xs with
  | nil => rfl
  | cons c rest ih =>
    have hc : ¬ c = '=' := fun hcc => h (by simp [hcc])
    have hrest : '=' ∉ rest := fun hr => h (by simp [hr])
    rw [splitEq, if_neg hc, ih hrest]

theorem splitEq_append (xs ys : List Char) (hx : '=' ∉ xs) :
    splitEq (xs ++ '=' :: ys) = xs :: splitEq ys := by
  induction xs with
  | nil =>
    simp only [List.nil_append]
    rw [splitEq, if_pos rfl]
  | cons c rest ih =>
    have hc : ¬ c = '=' := fun hcc => hx (by simp [hcc])
    have hrest : '=' ∉ rest := fun hr => hx (by simp [hr])
    simp only [List.cons_append]
    rw [splitEq, if_neg hc, ih hrest]

theorem string_mk_data (s : String) : String.mk s.data = s := by
  cases s
  rfl

/-- C2 counterexample: on the end-to-end document of spec §8 with
`vars = {s: 42}`, the pass sets node `a`'s `Seed` to the integer `42`,
not to the string `"42"` the claim demands — `update_node_property`
assigns the raw `vars[...]` value, only the `Variables` entry goes
through `str()`. -/
theorem c2_counterexample :
    configure_terrain_file c2doc "/out" [("s", JSON.num 42)] =
      Except.ok c2res ∧
    occ_values "Seed" c2res = [JSON.num 42] ∧
    JSON.num 42 ≠ JSON.str "42" := by
  refine ⟨rfl, rfl, ?_⟩
  simp

/-- C2 (amended): on the §8 document with `vars = {s: 42}`,
`configure_terrain_file` sets node `a`'s `Seed` to the raw integer `42`
and `Variables.s` to the string `"42"` — a matched binding writes the
variable's raw evaluated value to `node[Property]`, while the Variables
broadcast writes the string form — with the `Bindings` and `Nodes`
collection shapes (indeed the whole document shape) unchanged. -/
theorem c2_amended_end_to_end :
    configure_terrain_file c2doc "/out" [("s", JSON.num 42)] =
      Except.ok c2res ∧
    shape c2res = shape c2doc :=
  ⟨rfl, rfl⟩

/-- C3 (code bug): `main` copies the loaded document with `dict.copy()`
(src/automate.py line 256), a shallow copy that shares every nested
container with the original.  `update_key` rewrites the inner dict of
`c3doc` in place, so after the first run the original loaded document
equals `c3res` — the original is mutated, contrary to the claim and to
the spec's ownership rule.  This theorem exhibits the mutation the run
applies to the shared nested dict: the `Destination` one level down is
rewritten, and only the top-level dict of the copy is fresh. -/
theorem c3_shallow_copy_mutation :
    configure_terrain_file c3doc "/run1/out" [] = Except.ok c3res ∧
    occ_values "Destination" c3doc = [JSON.str "old"] ∧
    occ_values "Destination" c3res = [JSON.str "/run1/out"] :=
  ⟨rfl, rfl, rfl⟩

/-- C4 counterexample: `split('=')` has no maxsplit, so the assignment
`"x=1=2"` splits into three parts and the two-name tuple unpacking raises
an uncaught `ValueError`, aborting `evaluate_vars` — the expression after
the first `=` is not kept whole as the claim states. -/
theorem c4_counterexample :
    splitEqStr "x=1=2" = ["x", "1", "2"] ∧
    evaluate_vars (fun _ => none) ["x=1=2"] =
      Except.error PyErr.unpackError :=
  ⟨rfl, rfl⟩

/-- C4 (amended): each assignment is split on every `'='`; when the
assignment contains exactly one `'='` the variable name is the text
before it (used verbatim as the table key) and the remainder is the
expression, and the assignment is processed without raising; an
assignment whose split does not have exactly two parts (no `'='`, or an
expression containing further `'='` characters) makes the tuple
unpacking raise `ValueError`, aborting the evaluation. -/
theorem c4_amended_split (n e : String) (hn : '=' ∉ n.toList)
    (he : '=' ∉ e.toList) (ev : String → Option JSON)
    (acc : List (String × JSON)) :
    splitEqStr (n ++ "=" ++ e) = [n, e] ∧
    (∃ t, evaluate_vars_loop ev [n ++ "=" ++ e] acc = Except.ok t) ∧
    (∀ a rest, (splitEqStr a).length ≠ 2 →
      evaluate_vars_loop ev (a :: rest) acc =
        Except.error PyErr.unpackError) := by
  have hsp : splitEqStr (n ++ "=" ++ e) = [n, e] := by
    have hdata : (n ++ "=" ++ e).toList = n.data ++ '=' :: e.data := by
      show (n ++ "=" ++ e).data = n.data ++ '=' :: e.data
      rw [String.data_append, String.data_append]
      simp
    rw [splitEqStr, hdata, splitEq_append n.data e.data hn,
      splitEq_no_eq e.data he]
    simp [string_mk_data]
  refine ⟨hsp, ?_, ?_⟩
  · by_cases hc : str_contains e "lambda" = true
    · cases hev : ev e with
      | some v =>
        exact ⟨dictSet acc n v, by
          simp [evaluate_vars_loop, hsp, hc, hev]⟩
      | none =>
        exact ⟨acc, by simp [evaluate_vars_loop, hsp, hc, hev]⟩
    · cases hpi : pyInt e with
      | some i =>
        exact ⟨dictSet acc n (JSON.num i), by
          simp [evaluate_vars_loop, hsp, hc, hpi]⟩
      | none =>
        exact ⟨acc, by simp [evaluate_vars_loop, hsp, hc, hpi]⟩
  · intro a rest hl
    cases hsa : splitEqStr a with
    | nil => simp [evaluate_vars_loop, hsa]
    | cons x l1 =>
      cases l1 with
      | nil => simp [evaluate_vars_loop, hsa]
      | cons y l2 =>
        cases l2 with
        | nil => exact absurd (by rw [hsa]; rfl) hl
        | cons z l3 => simp [evaluate_vars_loop, hsa]

/-- C4 witness: an assignment with a single `'='` and a deferred
expression is split into name and whole expression. -/
theorem c4_amended_split_witness :
    splitEqStr ("x" ++ "=" ++ "lambda: 5") = ["x", "lambda: 5"] :=
  (c4_amended_split "x" "lambda: 5" (by decide) (by decide)
    (fun _ => some (JSON.num 5)) []).1

/-- C9 (confirmed): an assignment whose value production fails — a
deferred (`lambda`) expression whose invocation raises, modelled by the
oracle returning `none`, or a non-deferred right-hand side that does not
parse as an integer — is caught: that variable is omitted and the
remaining assignments are evaluated exactly as if the failing assignment
were absent; the run is not aborted. -/
theorem c9_failed_variable_omitted (ev : String → Option JSON)
    (bad n e : String) (hsplit : splitEqStr bad = [n, e])
    (hfail : (str_contains e "lambda" = true ∧ ev e = none) ∨
      (str_contains e "lambda" = false ∧ pyInt e = none)) :
    ∀ pre post acc,
      evaluate_vars_loop ev (pre ++ bad :: post) acc =
        evaluate_vars_loop ev (pre ++ post) acc := by
  intro pre
  induction pre with
  | nil =>
    intro post acc
    simp only [List.nil_append]
    rcases hfail with ⟨hc, hev⟩ | ⟨hc, hpi⟩
    · simp [evaluate_vars_loop, hsplit, hc, hev]
    · simp [evaluate_vars_loop, hsplit, hc, hpi]
  | cons a pre2 ih =>
    intro post acc
    simp only [List.cons_append]
    cases hsa : splitEqStr a with
    | nil => simp [evaluate_vars_loop, hsa]
    | cons x l1 =>
      cases l1 with
      | nil => simp [evaluate_vars_loop, hsa]
      | cons y l2 =>
        cases l2 with
        | nil =>
          simp only [evaluate_vars_loop, hsa]
          by_cases hc : str_contains y "lambda" = true
          · simp only [hc, if_true, ite_true]
            cases hev : ev y with
            | some v => simp [hev, ih]
            | none => simp [hev, ih]
          · simp only [hc, if_false, ite_false]
            cases hpi : pyInt y with
            | some i => simp [hpi, ih]
            | none => simp [hpi, ih]
        | cons z l3 => simp [evaluate_vars_loop, hsa]

/-- C9 witness: the deferred assignment in the middle fails to evaluate;
the table is the same as without it, and `a` and `b` are still set. -/
theorem c9_failed_variable_omitted_witness :
    evaluate_vars_loop (fun _ => none)
      (["a=1"] ++ "x=lambda: boom" :: ["b=2"]) [] =
      evaluate_vars_loop (fun _ => none) (["a=1"] ++ ["b=2"]) [] :=
  c9_failed_variable_omitted (fun _ => none) "x=lambda: boom" "x"
    "lambda: boom" rfl (Or.inl ⟨rfl, rfl⟩) ["a=1"] ["b=2"] []
